import Mathlib

/-!
# rktl_game/index.js : the game dashboard page script

A shallow embedding of `src/rktl_game/index.js`.  The script is event driven:
its top level runs once at page load, and afterwards the host calls the
functions it registered (three connection lifecycle handlers, one interval
function, the message callbacks that function registers) and the global
function `set_game_time`.

Every function of the script is a state transformer over `Page`, the part of
the host the script can touch: the document, the console, the connections it
opened, the requests it handed to the ROS client library and the callbacks it
registered.  A JavaScript exception is an `Except.error` result next to the
page as it stood when the exception was thrown.
-/

namespace RktlGame

/-! ## JavaScript values -/

/-- An ECMAScript Number: NaN, an infinity, or the finite value
`(-1)^neg * mant * 2^exp` (so `fin true 0 0` is the negative zero). -/
inductive JSNum where
  | nan
  | inf (neg : Bool)
  | fin (neg : Bool) (mant : Nat) (exp : Int)
deriving DecidableEq, Repr

/-- The values a message delivered by the bridge is made of (what `JSON.parse`
builds: no functions, no accessors, every object a plain one that lists its own
properties, each name once), together with `undefined`, the result of reading
a property that is not there. -/
inductive JSVal where
  | undefined
  | null
  | bool (b : Bool)
  | num (n : JSNum)
  | str (s : String)
  | arr (items : List JSVal)
  | obj (fields : List (String × JSVal))

/-- The exceptions the script can raise; all of them are `TypeError`s. -/
inductive JSError where
  | typeError
deriving DecidableEq, Repr

/-- The property names the script reads from a message. None of them is an own
property of a primitive or of an array, and none is defined on a built-in
prototype, so reading one from anything but a plain object gives `undefined`. -/
inductive Field where
  | score
  | blue
  | orange
  | clock
  | status
deriving DecidableEq, Repr

/-- The source text of a property name. -/
def Field.key : Field → String
  | .score => "score"
  | .blue => "blue"
  | .orange => "orange"
  | .clock => "clock"
  | .status => "status"

/-- The first entry of an object stored under `key`. -/
def lookupField (key : String) : List (String × JSVal) → Option JSVal
  | [] => none
  | (k, v) :: rest => if k = key then some v else lookupField key rest

/-- Property read `v.f`: a `TypeError` on `undefined` and `null`, the own
property of a plain object when it has one, `undefined` otherwise. -/
def JSVal.get (v : JSVal) (f : Field) : Except JSError JSVal :=
  match v with
  | .undefined => .error .typeError
  | .null => .error .typeError
  | .obj fields => .ok ((lookupField f.key fields).getD .undefined)
  | _ => .ok .undefined

/-- Whether an object has an own property of that name. -/
def hasField (key : String) (fields : List (String × JSVal)) : Bool :=
  (lookupField key fields).isSome

/-- The host operations that depend on floating point and are left to the
engine: `Number::toString`. -/
structure Host where
  numberToString : JSNum → String

mutual
/-- ECMAScript `ToString`. A plain object goes through
`Object.prototype.toString`, unless an own `toString` property shadows it: that
property is not callable, the inherited `valueOf` returns the object itself,
and the conversion ends in a `TypeError`. An array goes through `join`. -/
def toStr (host : Host) : JSVal → Except JSError String
  | .undefined => .ok "undefined"
  | .null => .ok "null"
  | .bool b => .ok (if b then "true" else "false")
  | .num n => .ok (host.numberToString n)
  | .str s => .ok s
  | .arr items => joinItems host items
  | .obj fields =>
    if hasField "toString" fields then .error .typeError else .ok "[object Object]"
/-- The result of `Array.prototype.join` with the default separator:
`undefined` and `null` elements contribute the empty string. -/
def joinItems (host : Host) : List JSVal → Except JSError String
  | [] => .ok ""
  | .undefined :: rest => joinRest host "" rest
  | .null :: rest => joinRest host "" rest
  | v :: rest =>
    match toStr host v with
    | .error e => .error e
    | .ok s => joinRest host s rest
/-- The elements after the first, each behind a comma. -/
def joinRest (host : Host) (acc : String) : List JSVal → Except JSError String
  | [] => .ok acc
  | .undefined :: rest => joinRest host (acc ++ ",") rest
  | .null :: rest => joinRest host (acc ++ ",") rest
  | v :: rest =>
    match toStr host v with
    | .error e => .error e
    | .ok s => joinRest host (acc ++ "," ++ s) rest
end

/-- The conversion WebIDL applies to a value assigned to `innerHTML`, a
`[LegacyNullToEmptyString] DOMString`: `null` becomes the empty string, every
other value goes through `ToString`. -/
def toMarkup (host : Host) : JSVal → Except JSError String
  | .null => .ok ""
  | v => toStr host v

/-! ## parseInt -/

/-- The code points `parseInt` skips at the start of its input: ECMAScript
WhiteSpace and LineTerminator. -/
def isStrWhiteSpace (c : Char) : Bool :=
  c.toNat ∈ [0x09, 0x0A, 0x0B, 0x0C, 0x0D, 0x20, 0xA0, 0x1680, 0x2000, 0x2001, 0x2002,
    0x2003, 0x2004, 0x2005, 0x2006, 0x2007, 0x2008, 0x2009, 0x200A, 0x2028, 0x2029,
    0x202F, 0x205F, 0x3000, 0xFEFF]

/-- The value of a character as a digit of the given radix, when it is one. -/
def digitValue (radix : Nat) (c : Char) : Option Nat :=
  let d :=
    if '0'.toNat ≤ c.toNat ∧ c.toNat ≤ '9'.toNat then some (c.toNat - '0'.toNat)
    else if 'a'.toNat ≤ c.toNat ∧ c.toNat ≤ 'z'.toNat then some (c.toNat - 'a'.toNat + 10)
    else if 'A'.toNat ≤ c.toNat ∧ c.toNat ≤ 'Z'.toNat then some (c.toNat - 'A'.toNat + 10)
    else none
  d.filter (fun n => n < radix)

/-- The input of `parseInt` once leading white space is skipped, split into
its sign and what follows the sign. -/
def splitSign (input : List Char) : Bool × List Char :=
  match input.dropWhile isStrWhiteSpace with
  | '-' :: rest => (true, rest)
  | '+' :: rest => (false, rest)
  | rest => (false, rest)

/-- The radix `parseInt` settles on when called without one, and the text left
to read: sixteen behind `0x` or `0X`, ten otherwise. -/
def splitRadix : List Char → Nat × List Char
  | '0' :: 'x' :: rest => (16, rest)
  | '0' :: 'X' :: rest => (16, rest)
  | rest => (10, rest)

/-- The digits `parseInt` reads: the longest run of digits of the radix
that follows white space, sign and radix mark. -/
def leadingDigits (input : String) : Nat × List Char :=
  let body := splitRadix (splitSign input.data).2
  (body.1, body.2.takeWhile (fun c => (digitValue body.1 c).isSome))

/-- The integer a run of digits denotes in the given radix. -/
def digitsValue (radix : Nat) (digits : List Char) : Nat :=
  digits.foldl (fun acc c => acc * radix + (digitValue radix c).getD 0) 0

/-- The position of the highest set bit of `k`, found in at most `fuel`
halvings. -/
def highBit : Nat → Nat → Nat
  | 0, _ => 0
  | fuel + 1, k => if k < 2 then 0 else highBit fuel (k / 2) + 1

/-- An integer `n` of 2^53 or more rounded to 53 significant bits: the mantissa
between 2^52 and 2^53 and the exponent of the nearest such value, a tie going
to the even mantissa. -/
def roundBits (n : Nat) : Nat × Nat :=
  let shift := highBit n n - 52
  let q := n / 2 ^ shift
  let r := n % 2 ^ shift
  let half := 2 ^ (shift - 1)
  let mant := if half < r ∨ (r = half ∧ q % 2 = 1) then q + 1 else q
  if mant = 2 ^ 53 then (2 ^ 52, shift + 1) else (mant, shift)

/-- The Number value of the integer `(-1)^neg * n`: the integer itself below
2^53, and beyond that the nearest double, which is the infinity of that sign
once the exponent passes 971 (a value of 2^1024 or more). -/
def toNumber (neg : Bool) (n : Nat) : JSNum :=
  if n < 2 ^ 53 then .fin neg n 0
  else if 971 < (roundBits n).2 then .inf neg
  else .fin neg (roundBits n).1 (roundBits n).2

/-- The built-in `parseInt(string)` on a string, called without a radix. The
result is NaN when no digit can be read, and otherwise the Number value of the
integer the digits denote, with the sign of the input (so `-0` gives the
negative zero). The value is rounded from all the digits, as the engines do;
ECMAScript lets an engine drop decimal digits behind the twentieth. -/
def parseIntString (input : String) : JSNum :=
  let digits := leadingDigits input
  if digits.2.isEmpty then .nan
  else toNumber (splitSign input.data).1 (digitsValue digits.1 digits.2)

/-- The built-in `parseInt(v)`: the argument is first converted to a string. -/
def parseInt (host : Host) (v : JSVal) : Except JSError JSNum :=
  match toStr host v with
  | .error e => .error e
  | .ok s => .ok (parseIntString s)

/-! ## The page -/

/-- An element of the document: its `value` property (`none` when the element
is not a form control and reading `value` gives `undefined`) and the markup
last assigned to its `innerHTML`. -/
structure Element where
  value : Option String
  innerHTML : String
deriving DecidableEq, Repr

/-- The states of a connection. -/
inductive ConnState where
  | connecting
  | connected
  | errored
  | closed
deriving DecidableEq, Repr

/-- A `ROSLIB.Ros` object: the URL it was opened with and its state. -/
structure Connection where
  url : String
  state : ConnState
deriving DecidableEq, Repr

/-- A `ROSLIB.Topic` handle; `ros` is the index of its connection among the
connections of the page. -/
structure Topic where
  ros : Nat
  name : String
  messageType : String
deriving DecidableEq, Repr

/-- A `ROSLIB.Service` handle. -/
structure Service where
  ros : Nat
  name : String
  serviceType : String
deriving DecidableEq, Repr

/-- A `ROSLIB.Param` handle. -/
structure Param where
  ros : Nat
  name : String
deriving DecidableEq, Repr

/-- What the script hands to the client library to be sent: a parameter write
`param.set(value)` or a service call `service.callService()` without
arguments. -/
inductive Request where
  | paramSet (param : Param) (value : JSNum)
  | callService (service : Service)
deriving DecidableEq, Repr

/-- The function expressions of the script, by the line they start on:
the three lifecycle handlers (lines 8, 12, 16), the interval function
(line 65) and the message callback it registers (line 66). -/
inductive Closure where
  | onConnection
  | onError
  | onClose
  | intervalTick
  | statusCallback
deriving DecidableEq, Repr

/-- The part of the host the script reads and writes. -/
structure Page where
  /-- The document, as `getElementById` sees it. -/
  dom : String → Option Element
  /-- The console: the argument list of every `console.log` call, oldest first. -/
  log : List (List JSVal)
  /-- The connections opened so far. -/
  connections : List Connection
  /-- The handlers registered with `ros.on`, under their event name. -/
  listeners : List (String × Closure)
  /-- The functions registered with `setInterval`, with their period in ms. -/
  intervals : List (Closure × Nat)
  /-- The callbacks registered with `subscribe`, each with the topic handle it
  was registered on, oldest first. -/
  subscribers : List (Topic × Closure)
  /-- The requests handed to the client library, oldest first. -/
  requests : List Request
  /-- The exceptions that reached the default handler of the host. -/
  uncaught : List JSError

/-- A piece of script: it runs on a page, returns or throws, and leaves a page. -/
def Script (α : Type) : Type := Page → Except JSError α × Page

/-- Return without touching the page. -/
def Script.pure {α : Type} (a : α) : Script α := fun p => (.ok a, p)

/-- Sequencing: an exception in the first part skips the second. -/
def Script.bind {α β : Type} (x : Script α) (f : α → Script β) : Script β := fun p =>
  match x p with
  | (.ok a, q) => f a q
  | (.error e, q) => (.error e, q)

instance : Monad Script where
  pure := Script.pure
  bind := Script.bind

/-- The outcome of an expression that does not touch the page. -/
def Script.eval {α : Type} (r : Except JSError α) : Script α := fun p => (r, p)

/-! ## Host and library calls -/

/-- The call `console.log(args)`. -/
def console_log (args : List JSVal) : Script Unit := fun p =>
  (.ok (), { p with log := p.log ++ [args] })

/-- The document with the markup of one element replaced. -/
def setMarkup (dom : String → Option Element) (id : String) (el : Element) (markup : String) :
    String → Option Element :=
  fun j => if j = id then some { el with innerHTML := markup } else dom j

/-- The statement `document.getElementById(id).innerHTML = rhs`. The element
is looked up first, then the right-hand side is evaluated, then the store
fails on a missing element, and last the setter converts the value. -/
def assignInnerHTML (host : Host) (id : String) (rhs : Except JSError JSVal) : Script Unit :=
  fun p =>
    let target := p.dom id
    match rhs with
    | .error e => (.error e, p)
    | .ok v =>
      match target with
      | none => (.error .typeError, p)
      | some el =>
        match toMarkup host v with
        | .error e => (.error e, p)
        | .ok markup => (.ok (), { p with dom := setMarkup p.dom id el markup })

/-- The expression `document.getElementById(id).value`. -/
def elementValue (id : String) : Script JSVal := fun p =>
  match p.dom id with
  | none => (.error .typeError, p)
  | some el =>
    match el.value with
    | some s => (.ok (.str s), p)
    | none => (.ok .undefined, p)

/-- The constructor call `new ROSLIB.Ros` with a URL: the page gets one more
connection, in the state `st` the transport reports for it, and the call
returns its index. -/
def newRos (url : String) (st : ConnState) : Script Nat := fun p =>
  (.ok p.connections.length, { p with connections := p.connections ++ [⟨url, st⟩] })

/-- The call `ros.on(event, handler)`. -/
def rosOn (event : String) (handler : Closure) : Script Unit := fun p =>
  (.ok (), { p with listeners := p.listeners ++ [(event, handler)] })

/-- The call `setInterval(fn, period)`. -/
def setInterval (fn : Closure) (period : Nat) : Script Unit := fun p =>
  (.ok (), { p with intervals := p.intervals ++ [(fn, period)] })

/-- The call `topic.subscribe(callback)`: the callback joins the ones already
registered, which stay. -/
def subscribe (topic : Topic) (callback : Closure) : Script Unit := fun p =>
  (.ok (), { p with subscribers := p.subscribers ++ [(topic, callback)] })

/-- The call `param.set(value)`. -/
def paramSet (param : Param) (value : JSNum) : Script Unit := fun p =>
  (.ok (), { p with requests := p.requests ++ [.paramSet param value] })

/-- The call `service.callService()`. -/
def callService (service : Service) : Script Unit := fun p =>
  (.ok (), { p with requests := p.requests ++ [.callService service] })

/-! ## The script -/

/-- The URL on line 5. -/
def rosUrl : String := "ws://172.17.0.2:9090"

/-- The global `ros` (line 4) as the functions of the script see it: the first
connection the page opens. -/
def ros : Nat := 0

/-- The global `statusListener` (lines 23 to 27), as the functions see it. -/
def statusListener : Topic :=
  { ros := ros, name := "/match_status", messageType := "rktl_msgs/MatchStatus" }

/-- The global `pause_srv` (lines 31 to 35). -/
def pause_srv : Service :=
  { ros := ros, name := "pause_game", serviceType := "std_srvs/Empty" }

/-- The global `unpause_srv` (lines 37 to 41). -/
def unpause_srv : Service :=
  { ros := ros, name := "unpause_game", serviceType := "std_srvs/Empty" }

/-- The global `reset_srv` (lines 43 to 47). -/
def reset_srv : Service :=
  { ros := ros, name := "clock_set", serviceType := "std_srvs/Empty" }

/-- The global `game_time_param` (lines 51 to 54). -/
def game_time_param : Param :=
  { ros := ros, name := "/game_length" }

/-- The function `set_game_time` (lines 56 to 61). -/
def set_game_time (host : Host) : Script Unit := do
  let time ← elementValue "time-set"
  let time ← Script.eval (parseInt host time)
  paramSet game_time_param time
  callService reset_srv

/-- The expression `message.score.f`. -/
def scoreField (message : JSVal) (f : Field) : Except JSError JSVal :=
  match message.get .score with
  | .error e => .error e
  | .ok score => score.get f

/-- The message callback (lines 66 to 71). -/
def onStatusMessage (host : Host) (message : JSVal) : Script Unit := do
  assignInnerHTML host "blue-score" (scoreField message .blue)
  assignInnerHTML host "orange-score" (scoreField message .orange)
  assignInnerHTML host "timer" (message.get .clock)
  let status ← Script.eval (message.get .status)
  console_log [status]

/-- The body of each function expression of the script, applied to the
argument the host passes. -/
def Closure.call (host : Host) : Closure → JSVal → Script Unit
  | .onConnection, _ => console_log [.str "Connected to websocket server."]
  | .onError, error => console_log [.str "Error connecting to websocket server: ", error]
  | .onClose, _ => console_log [.str "Connection to websocket server closed."]
  | .intervalTick, _ => subscribe statusListener .statusCallback
  | .statusCallback, message => onStatusMessage host message

/-- The handles the top level of the script builds and keeps in globals. -/
structure Handles where
  ros : Nat
  statusListener : Topic
  pause_srv : Service
  unpause_srv : Service
  reset_srv : Service
  game_time_param : Param
deriving DecidableEq, Repr

/-- The top level of the script, run once when the page loads; `st` is the
state of the new connection while the rest of the top level runs. The
constructors of the handles only record the connection and the names. -/
def main (st : ConnState) : Script Handles := do
  let ros ← newRos "ws://172.17.0.2:9090" st
  rosOn "connection" .onConnection
  rosOn "error" .onError
  rosOn "close" .onClose
  let statusListener : Topic :=
    { ros := ros, name := "/match_status", messageType := "rktl_msgs/MatchStatus" }
  let pause_srv : Service :=
    { ros := ros, name := "pause_game", serviceType := "std_srvs/Empty" }
  let unpause_srv : Service :=
    { ros := ros, name := "unpause_game", serviceType := "std_srvs/Empty" }
  let reset_srv : Service :=
    { ros := ros, name := "clock_set", serviceType := "std_srvs/Empty" }
  let game_time_param : Param := { ros := ros, name := "/game_length" }
  setInterval .intervalTick 1000
  pure { ros, statusListener, pause_srv, unpause_srv, reset_srv, game_time_param }

/-- The page before the script runs: the document, and nothing else yet. -/
def blank (dom : String → Option Element) : Page :=
  { dom := dom, log := [], connections := [], listeners := [], intervals := [],
    subscribers := [], requests := [], uncaught := [] }

/-- The page once the script has loaded. -/
def load (dom : String → Option Element) (st : ConnState) : Page :=
  (main st (blank dom)).2

/-! ## The event loop -/

/-- What the host delivers to the page after load. -/
inductive Event where
  | connection
  | error (info : JSVal)
  | close
  | tick
  | message (m : JSVal)
  | setGameTime

/-- One call from the host into the script: an exception the call does not
catch ends that call only and goes to the default handler. -/
def invoke (body : Script Unit) (p : Page) : Page :=
  match body p with
  | (.ok _, q) => q
  | (.error e, q) => { q with uncaught := q.uncaught ++ [e] }

/-- The callbacks registered on the handles of a topic name. -/
def callbacksOf (name : String) (p : Page) : List Closure :=
  (p.subscribers.filter (fun s => s.1.name = name)).map (fun s => s.2)

/-- The dispatch of the event emitter of the client library: the listeners
are called in the order of their registration, on the same argument, with no
handler around the calls, so the first exception ends the dispatch and the
listeners behind it are not called. -/
def emit (host : Host) : List Closure → JSVal → Script Unit
  | [], _ => fun p => (.ok (), p)
  | fn :: rest, arg => fun p =>
    match fn.call host arg p with
    | (.ok _, q) => emit host rest arg q
    | (.error e, q) => (.error e, q)

/-- The handlers registered under an event name. -/
def handlersOf (event : String) (p : Page) : List Closure :=
  (p.listeners.filter (fun l => l.1 = event)).map (fun l => l.2)

/-- The page with every connection moved to a state. -/
def Page.withState (p : Page) (st : ConnState) : Page :=
  { p with connections := p.connections.map (fun c => { c with state := st }) }

/-- One turn of the event loop. A lifecycle event moves the connection to its
new state and dispatches to the handlers registered for it; a tick is the host
calling each interval function; an inbound message on `/match_status` is
dispatched to the callbacks registered on that topic; `setGameTime` is the page
calling `set_game_time()`. -/
def step (host : Host) (ev : Event) (p : Page) : Page :=
  match ev with
  | .connection =>
    invoke (emit host (handlersOf "connection" p) .undefined) (p.withState .connected)
  | .error info => invoke (emit host (handlersOf "error" p) info) (p.withState .errored)
  | .close => invoke (emit host (handlersOf "close" p) .undefined) (p.withState .closed)
  | .tick => p.intervals.foldl (fun q i => invoke (i.1.call host .undefined) q) p
  | .message m => invoke (emit host (callbacksOf "/match_status" p) m) p
  | .setGameTime => invoke (set_game_time host) p

/-- A sequence of events, oldest first. -/
def run (host : Host) (evs : List Event) (p : Page) : Page :=
  evs.foldl (fun q ev => step host ev q) p

/-! ## Vocabulary of the properties -/

/-- A message of the expected shape as far as the display goes: `m.score.blue`,
`m.score.orange` and `m.clock` are the given numbers, and `m.status` reads as
`status`. -/
def IsMatchStatus (m : JSVal) (blue orange clock : JSNum) (status : JSVal) : Prop :=
  ∃ score, m.get .score = .ok score ∧ score.get .blue = .ok (.num blue) ∧
    score.get .orange = .ok (.num orange) ∧ m.get .clock = .ok (.num clock) ∧
    m.get .status = .ok status

/-- The three display elements exist in the document. -/
def HasDisplay (p : Page) : Prop :=
  (p.dom "blue-score").isSome ∧ (p.dom "orange-score").isSome ∧ (p.dom "timer").isSome

/-- The markup of an element, when the element exists. -/
def markupOf (p : Page) (id : String) : Option String :=
  (p.dom id).map (fun el => el.innerHTML)

/-- Whether an event is a timer tick. -/
def Event.isTick : Event → Bool
  | .tick => true
  | _ => false

/-- The number of timer ticks among the events. -/
def ticks (evs : List Event) : Nat :=
  (evs.filter Event.isTick).length

/-- The registrations the top level of the script leaves behind, with `n`
callbacks on `statusListener`: what holds of a page from load on. -/
def Loaded (p : Page) (n : Nat) : Prop :=
  p.listeners = [("connection", .onConnection), ("error", .onError), ("close", .onClose)] ∧
  p.intervals = [(.intervalTick, 1000)] ∧
  p.subscribers = List.replicate n (statusListener, .statusCallback) ∧
  p.connections.map (fun c => c.url) = [rosUrl]

/-- The page `q` differs from `p` in the document and the console at most. -/
def DisplayOnly (p q : Page) : Prop :=
  q.listeners = p.listeners ∧ q.intervals = p.intervals ∧ q.connections = p.connections ∧
  q.subscribers = p.subscribers ∧ q.requests = p.requests ∧ q.uncaught = p.uncaught

/-- The message or its `score` is `null` or `undefined`, a missing `score`
included. -/
def ScoreUnreadable (m : JSVal) : Prop :=
  m = .undefined ∨ m = .null ∨ m.get .score = .ok .undefined ∨ m.get .score = .ok .null

mutual
/-- The values whose conversion to a string throws: an object with an own
`toString` property, and an array that holds such a value at any depth. -/
def unprintable : JSVal → Bool
  | .arr items => anyUnprintable items
  | .obj fields => hasField "toString" fields
  | _ => false
/-- Whether one of the values is unprintable. -/
def anyUnprintable : List JSVal → Bool
  | [] => false
  | v :: rest => unprintable v || anyUnprintable rest
end

/-- The message can be shown: `score.blue`, `score.orange` and `clock` can be
read and converted to a string, and `status` can be read. -/
def Deliverable (host : Host) (m : JSVal) : Prop :=
  (∃ v s, scoreField m .blue = .ok v ∧ toMarkup host v = .ok s) ∧
  (∃ v s, scoreField m .orange = .ok v ∧ toMarkup host v = .ok s) ∧
  (∃ v s, m.get .clock = .ok v ∧ toMarkup host v = .ok s) ∧
  ∃ vs, m.get .status = .ok vs

/-- A message without `score`. -/
def clockOnlyMessage : JSVal :=
  .obj [("clock", .num (.fin false 90 0))]

/-- The expected shape, in the words of the specification: an object with the
fields `clock` and `status` and a field `score` that is an object with the
fields `blue` and `orange`. -/
def hasExpectedShape : JSVal → Bool
  | .obj fields =>
    hasField "clock" fields && hasField "status" fields &&
      (match lookupField "score" fields with
        | some (.obj inner) => hasField "blue" inner && hasField "orange" inner
        | _ => false)
  | _ => false

/-- An integer literal, in the words of the specification: decimal digits, at
least one, behind an optional sign. -/
def isIntegerLiteral (s : String) : Bool :=
  let digits := match s.data with
    | '-' :: rest => rest
    | '+' :: rest => rest
    | rest => rest
  !digits.isEmpty && digits.all Char.isDigit

/-- A sample engine for the examples: `Number::toString` as ECMAScript defines it
on NaN, the infinities, the zeros and the integers below 2^53. On the other
numbers, which no example uses, it prints `mant * 2 ^ exp.toNat`. -/
def sampleHost : Host where
  numberToString
    | .nan => "NaN"
    | .inf neg => if neg then "-Infinity" else "Infinity"
    | .fin neg mant exp =>
      if mant = 0 then "0" else (if neg then "-" else "") ++ toString (mant * 2 ^ exp.toNat)

/-- A sample document: the input `time-set` holding `value` and the three
display elements, all empty. -/
def sampleDom (value : String) : String → Option Element := fun j =>
  if j = "time-set" then some ⟨some value, ""⟩
  else if j = "blue-score" ∨ j = "orange-score" ∨ j = "timer" then some ⟨none, ""⟩
  else none

/-- A sample message of the expected shape: blue 1, orange 2, clock 90. -/
def sampleMessage : JSVal :=
  .obj [("score", .obj [("blue", .num (.fin false 1 0)), ("orange", .num (.fin false 2 0))]),
    ("clock", .num (.fin false 90 0)), ("status", .str "running")]

/-- A message that lacks `clock` and `status`. -/
def scoreOnlyMessage : JSVal :=
  .obj [("score", .obj [("blue", .num (.fin false 1 0)), ("orange", .num (.fin false 2 0))])]

/-- A message with every expected field, whose `score.orange` is an object
with an own `toString` property. -/
def shadowedMessage : JSVal :=
  .obj [("score", .obj [("blue", .num (.fin false 1 0)),
      ("orange", .obj [("toString", .num (.fin false 0 0))])]),
    ("clock", .num (.fin false 90 0)), ("status", .str "running")]

/-! ## The delivery callback on valid messages -/

/-- C1. On a valid MatchStatus message and a document that has the three
display elements, the delivery callback returns normally; afterwards the markup
of `blue-score`, `orange-score` and `timer` is the string form of
`m.score.blue`, `m.score.orange` and `m.clock`, the console got exactly one
more line, which is `m.status`, and nothing else on the page changed. -/
theorem statusCallback_valid (host : Host) (m : JSVal) (blue orange clock : JSNum)
    (status : JSVal) (p : Page) (hm : IsMatchStatus m blue orange clock status)
    (hd : HasDisplay p) :
    ∃ q, onStatusMessage host m p = (.ok (), q) ∧
      markupOf q "blue-score" = some (host.numberToString blue) ∧
      markupOf q "orange-score" = some (host.numberToString orange) ∧
      markupOf q "timer" = some (host.numberToString clock) ∧
      q.log = p.log ++ [[status]] ∧
      q.requests = p.requests ∧ q.subscribers = p.subscribers ∧
      q.connections = p.connections ∧ q.uncaught = p.uncaught := by
  obtain ⟨score, h1, h2, h3, h4, h5⟩ := hm
  obtain ⟨d1, d2, d3⟩ := hd
  obtain ⟨e1, he1⟩ := Option.isSome_iff_exists.mp d1
  obtain ⟨e2, he2⟩ := Option.isSome_iff_exists.mp d2
  obtain ⟨e3, he3⟩ := Option.isSome_iff_exists.mp d3
  simp [onStatusMessage, Bind.bind, Script.bind, assignInnerHTML, Script.eval, console_log,
    scoreField, h1, h2, h3, h4, h5, he1, he2, he3, toMarkup, toStr, setMarkup, markupOf]

/-- The sample message on the freshly loaded sample page: the display reads 1, 2 and 90 and the console holds the status once. -/
theorem statusCallback_valid_witness :
    ∃ q, onStatusMessage sampleHost sampleMessage (load (sampleDom "") .connected) = (.ok (), q) ∧
      markupOf q "blue-score" = some "1" ∧
      markupOf q "orange-score" = some "2" ∧
      markupOf q "timer" = some "90" ∧
      q.log = [[.str "running"]] ∧
      q.requests = [] ∧ q.subscribers = [] ∧
      q.connections = [{ url := "ws://172.17.0.2:9090", state := .connected }] ∧
      q.uncaught = [] :=
  statusCallback_valid sampleHost sampleMessage (.fin false 1 0) (.fin false 2 0)
    (.fin false 90 0) (.str "running") (load (sampleDom "") .connected)
    ⟨_, rfl, rfl, rfl, rfl, rfl⟩ ⟨rfl, rfl, rfl⟩

/-! ## parseInt on a string of digits -/

theorem isDigit_bounds (c : Char) (h : c.isDigit = true) : 48 ≤ c.toNat ∧ c.toNat ≤ 57 := by
  simp [Char.isDigit] at h
  have h1 : (48 : UInt32).toNat ≤ c.val.toNat := h.1
  have h2 : c.val.toNat ≤ (57 : UInt32).toNat := h.2
  exact ⟨h1, h2⟩

theorem digitValue_ten_of_isDigit (c : Char) (h : c.isDigit = true) :
    digitValue 10 c = some (c.toNat - '0'.toNat) := by
  obtain ⟨h1, h2⟩ := isDigit_bounds c h
  have e0 : '0'.toNat = 48 := rfl
  have e9 : '9'.toNat = 57 := rfl
  simp only [digitValue, e0, e9]
  rw [if_pos ⟨h1, h2⟩]
  simp [Option.filter]
  omega

theorem isStrWhiteSpace_of_isDigit (c : Char) (h : c.isDigit = true) :
    isStrWhiteSpace c = false := by
  obtain ⟨h1, h2⟩ := isDigit_bounds c h
  simp [isStrWhiteSpace]
  omega

theorem digitValue_ten_isSome (c : Char) : (digitValue 10 c).isSome = c.isDigit := by
  cases h : c.isDigit with
  | true => rw [digitValue_ten_of_isDigit c h]; rfl
  | false =>
    have hb : ¬(48 ≤ c.toNat ∧ c.toNat ≤ 57) := by
      intro hb
      have : c.isDigit = true := by
        simp only [Char.isDigit, Bool.and_eq_true, decide_eq_true_eq]
        exact ⟨hb.1, hb.2⟩
      rw [this] at h; cases h
    have e0 : '0'.toNat = 48 := rfl
    have e9 : '9'.toNat = 57 := rfl
    have ea : 'a'.toNat = 97 := rfl
    have eA : 'A'.toNat = 65 := rfl
    simp only [digitValue, e0, e9, ea, eA, if_neg hb]
    split_ifs <;> simp [Option.filter]

theorem dropWhile_whiteSpace (ws rest : List Char) (hws : ws.all isStrWhiteSpace = true)
    (hrest : ∀ c, rest.head? = some c → isStrWhiteSpace c = false) :
    (ws ++ rest).dropWhile isStrWhiteSpace = rest := by
  induction ws with
  | nil =>
    cases rest with
    | nil => rfl
    | cons c r => simp [List.dropWhile, hrest c rfl]
  | cons w ws ih =>
    simp only [List.all_cons, Bool.and_eq_true] at hws
    simp only [List.cons_append, List.dropWhile, hws.1]
    exact ih hws.2

theorem splitSign_decimal (ws sg : List Char) (d : Char) (rest : List Char)
    (hws : ws.all isStrWhiteSpace = true) (hsg : sg = [] ∨ sg = ['+'] ∨ sg = ['-'])
    (hd : d.isDigit = true) :
    splitSign (ws ++ sg ++ d :: rest) = (decide (sg = ['-']), d :: rest) := by
  obtain ⟨h1, h2⟩ := isDigit_bounds d hd
  have hw := isStrWhiteSpace_of_isDigit d hd
  have hm : d ≠ '-' := by rintro rfl; revert h1; decide
  have hp : d ≠ '+' := by rintro rfl; revert h1; decide
  unfold splitSign
  rw [List.append_assoc, dropWhile_whiteSpace ws (sg ++ d :: rest) hws]
  · rcases hsg with rfl | rfl | rfl
    · simp only [List.nil_append]
      split
      · rename_i heq; simp at heq; exact absurd heq.1 hm
      · rename_i heq; simp at heq; exact absurd heq.1 hp
      · rfl
    · rfl
    · rfl
  · intro c hc
    rcases hsg with rfl | rfl | rfl
    · simp at hc; rw [← hc]; exact hw
    · simp at hc; rw [← hc]; decide
    · simp at hc; rw [← hc]; decide

theorem splitRadix_decimal (d : Char) (ds tail : List Char) (hds : ds.all Char.isDigit = true)
    (htail : ∀ c, tail.head? = some c → c ≠ 'x' ∧ c ≠ 'X') :
    splitRadix (d :: (ds ++ tail)) = (10, d :: (ds ++ tail)) := by
  have hx : ∀ c, (ds ++ tail).head? = some c → c ≠ 'x' ∧ c ≠ 'X' := by
    intro c hc
    cases ds with
    | nil => exact htail c hc
    | cons e es =>
      simp at hc hds
      rw [← hc]
      exact ⟨by rintro h; rw [h] at hds; exact absurd hds.1 (by decide),
        by rintro h; rw [h] at hds; exact absurd hds.1 (by decide)⟩
  unfold splitRadix
  split
  · rename_i heq
    simp only [List.cons.injEq] at heq
    exact absurd rfl (hx 'x' (by rw [heq.2]; rfl)).1
  · rename_i heq
    simp only [List.cons.injEq] at heq
    exact absurd rfl (hx 'X' (by rw [heq.2]; rfl)).2
  · rfl

theorem takeWhile_digits (ds tail : List Char) (hds : ds.all Char.isDigit = true)
    (htail : ∀ c, tail.head? = some c → c.isDigit = false) :
    (ds ++ tail).takeWhile (fun c => (digitValue 10 c).isSome) = ds := by
  induction ds with
  | nil =>
    cases tail with
    | nil => rfl
    | cons c r => simp [List.takeWhile, digitValue_ten_isSome, htail c rfl]
  | cons c rest ih =>
    simp only [List.all_cons, Bool.and_eq_true] at hds
    rw [List.cons_append, List.takeWhile_cons, digitValue_ten_isSome, hds.1]
    simp only [if_true]
    rw [ih hds.2]

theorem digitsValue_digits (ds : List Char) (h : ds.all Char.isDigit = true) (acc : Nat) :
    ds.foldl (fun acc c => acc * 10 + (digitValue 10 c).getD 0) acc =
      ds.foldl (fun n c => n * 10 + (c.toNat - '0'.toNat)) acc := by
  induction ds generalizing acc with
  | nil => rfl
  | cons c rest ih =>
    simp at h
    simp only [List.foldl, digitValue_ten_of_isDigit c h.1, Option.getD_some]
    exact ih (by simpa using h.2) _

/-- What `String.toNat?` says of a string: its characters are decimal digits,
at least one, and they denote the number. -/
theorem toNat_spec (ds : List Char) (n : Nat) (h : (String.mk ds).toNat? = some n) :
    ds ≠ [] ∧ ds.all Char.isDigit = true ∧
    ds.foldl (fun k c => k * 10 + (c.toNat - '0'.toNat)) 0 = n := by
  unfold String.toNat? at h
  split at h
  · rename_i hnat
    simp only [String.isNat, Bool.and_eq_true, Bool.not_eq_true', String.all_eq] at hnat
    obtain ⟨hne, hall⟩ := hnat
    simp only [Option.some.injEq, String.foldl_eq] at h
    refine ⟨?_, hall, h⟩
    rintro rfl
    exact absurd hne (by decide)
  · simp at h

/-- The function `parseInt` on decimal input: white space, an optional sign, a
run of decimal digits denoting `n`, and a rest that starts with neither a digit
nor the letter x. The result is the Number value of `n` with that sign. -/
theorem parseIntString_decimal (v : String) (ws sg ds tail : List Char) (n : Nat)
    (hv : v.data = ws ++ sg ++ ds ++ tail) (hws : ws.all isStrWhiteSpace = true)
    (hsg : sg = [] ∨ sg = ['+'] ∨ sg = ['-']) (hn : (String.mk ds).toNat? = some n)
    (htail : ∀ c, tail.head? = some c → c.isDigit = false ∧ c ≠ 'x' ∧ c ≠ 'X') :
    parseIntString v = toNumber (decide (sg = ['-'])) n := by
  obtain ⟨hne, hall, hval⟩ := toNat_spec ds n hn
  obtain ⟨d, rest, rfl⟩ := List.exists_cons_of_ne_nil hne
  simp only [List.all_cons, Bool.and_eq_true] at hall
  have hs : splitSign v.data = (decide (sg = ['-']), d :: (rest ++ tail)) := by
    rw [hv, List.append_assoc (ws ++ sg), List.cons_append]
    exact splitSign_decimal ws sg d (rest ++ tail) hws hsg hall.1
  have hr := splitRadix_decimal d rest tail hall.2 (fun c hc => (htail c hc).2)
  have ht := takeWhile_digits (d :: rest) tail (by simp [hall.1, hall.2])
    (fun c hc => (htail c hc).1)
  rw [List.cons_append] at ht
  simp only [parseIntString, leadingDigits, hs, hr, ht, digitsValue]
  rw [digitsValue_digits (d :: rest) (by simp [hall.1, hall.2]) 0, hval]
  simp

theorem parseIntString_of_toNat (v : String) (n : Nat) (h : v.toNat? = some n)
    (hlt : n < 2 ^ 53) : parseIntString v = .fin false n 0 := by
  have e := parseIntString_decimal v [] [] v.data [] n (by simp) rfl (Or.inl rfl) h
    (by intro c hc; simp at hc)
  rw [e, toNumber, if_pos hlt]
  simp

/-! ## set_game_time -/

/-- What `set_game_time` does when the element `time-set` exists: it parses
the value of the element (the text `undefined` when it has none), hands the
write of the result and then the call of `clock_set` to the library, and
returns. -/
theorem set_game_time_eq (host : Host) (p : Page) (el : Element)
    (hel : p.dom "time-set" = some el) :
    set_game_time host p =
      (.ok (), { p with requests := p.requests ++
        [.paramSet game_time_param (parseIntString (el.value.getD "undefined")),
         .callService reset_srv] }) := by
  cases hv : el.value <;>
    simp [set_game_time, Bind.bind, Script.bind, elementValue, hel, hv, Script.eval, parseInt,
      toStr, paramSet, callService]

/-- C2. When the value of `time-set` is a non-empty string of decimal digits
denoting an integer `n` below 2^53, `set_game_time` returns normally and the
only change to the page is two more requests: first the write of the integer
`n` to the parameter `/game_length`, then the call of the service `clock_set`. -/
theorem set_game_time_digits (host : Host) (p : Page) (el : Element) (v : String) (n : Nat)
    (hel : p.dom "time-set" = some el) (hv : el.value = some v) (hn : v.toNat? = some n)
    (hlt : n < 2 ^ 53) :
    set_game_time host p =
      (.ok (), { p with requests := p.requests ++
        [.paramSet { ros := ros, name := "/game_length" } (.fin false n 0),
         .callService { ros := ros, name := "clock_set", serviceType := "std_srvs/Empty" }] }) := by
  rw [set_game_time_eq host p el hel, hv]
  simp [parseIntString_of_toNat v n hn hlt, game_time_param, reset_srv]

/-- The input 120 on the freshly loaded sample page: the write of 120, then the call of `clock_set`. -/
theorem set_game_time_digits_witness :
    set_game_time sampleHost (load (sampleDom "120") .connected) =
      (.ok (), { load (sampleDom "120") .connected with requests :=
        [.paramSet { ros := ros, name := "/game_length" } (.fin false 120 0),
         .callService { ros := ros, name := "clock_set", serviceType := "std_srvs/Empty" }] }) :=
  set_game_time_digits sampleHost (load (sampleDom "120") .connected) ⟨some "120", ""⟩ "120" 120
    (by decide) rfl
    (by simp [String.toNat?, String.isNat, String.all_eq, String.foldl_eq]; decide) (by decide)

/-- C3. Whatever the value of `time-set` (any text, or no value at all) and
whatever the state of the connection, `set_game_time` returns normally and the
only change to the page is two more requests: one write of the parameter
`/game_length`, then one call of the service `clock_set`. -/
theorem set_game_time_unguarded (host : Host) (p : Page) (el : Element) (st : ConnState)
    (hel : p.dom "time-set" = some el) :
    ∃ t, set_game_time host (p.withState st) =
      (.ok (), { p.withState st with requests := p.requests ++
        [.paramSet { ros := ros, name := "/game_length" } t,
         .callService { ros := ros, name := "clock_set", serviceType := "std_srvs/Empty" }] }) :=
  ⟨parseIntString (el.value.getD "undefined"), set_game_time_eq host (p.withState st) el hel⟩

/-- The input abc on a closed connection: still one write and one call. -/
theorem set_game_time_unguarded_witness :
    ∃ t, set_game_time sampleHost ((load (sampleDom "abc") .connecting).withState .closed) =
      (.ok (), { (load (sampleDom "abc") .connecting).withState .closed with requests :=
        (load (sampleDom "abc") .connecting).requests ++
        [.paramSet { ros := ros, name := "/game_length" } t,
         .callService { ros := ros, name := "clock_set", serviceType := "std_srvs/Empty" }] }) :=
  set_game_time_unguarded sampleHost (load (sampleDom "abc") .connecting) ⟨some "abc", ""⟩ .closed
    (by decide)

/-- C4, as stated, fails: `3.5` is not an integer literal, yet `set_game_time`
writes the number 3, not NaN, to `/game_length`. -/
theorem set_game_time_nonliteral_counterexample :
    isIntegerLiteral "3.5" = false ∧
    (set_game_time sampleHost (load (sampleDom "3.5") .connected)).2.requests =
      [.paramSet { ros := ros, name := "/game_length" } (.fin false 3 0),
       .callService { ros := ros, name := "clock_set", serviceType := "std_srvs/Empty" }] ∧
    JSNum.fin false 3 0 ≠ JSNum.nan := by
  refine ⟨by decide, ?_, by decide⟩
  rw [set_game_time_eq sampleHost (load (sampleDom "3.5") .connected) ⟨some "3.5", ""⟩ (by decide)]
  decide

/-- Beyond 2^53 the value parsed is rounded to the nearest double, a tie to the
even one; a sign and a rest behind the digits are accepted, and so is a
hexadecimal mark. -/
theorem parseIntString_rounds :
    parseIntString "9007199254740993" = .fin false 4503599627370496 1 ∧
    parseIntString "9007199254740995" = .fin false 4503599627370498 1 ∧
    parseIntString "-12abc" = .fin true 12 0 ∧
    parseIntString " 0x1F" = .fin false 31 0 := by
  decide

/-- A digit string of 310 digits is beyond the doubles: it parses to Infinity. -/
theorem parseIntString_overflows :
    parseIntString (String.mk ('1' :: List.replicate 309 '0')) = .inf false := by
  decide!

theorem toNumber_ne_nan (neg : Bool) (n : Nat) : toNumber neg n ≠ .nan := by
  unfold toNumber
  split_ifs <;> simp

/-- C4, amended. When no digit can be read from the value of `time-set` (after
leading white space, an optional sign and an optional `0x` or `0X`, the text
does not start with a digit of the radix), `set_game_time` writes NaN to
`/game_length` and calls `clock_set` all the same. When a digit can be read,
the value it writes is not NaN: it is the Number value of the integer that the
leading digits denote in their radix, with the sign of the input. For decimal
input in particular (white space, an optional sign, decimal digits denoting
`n`, then a rest that starts with neither a digit nor the letter x) it is the
Number value of `n` with that sign, whatever the rest is. -/
theorem set_game_time_nan (host : Host) (p : Page) (el : Element) (v : String)
    (hel : p.dom "time-set" = some el) (hv : el.value = some v) :
    ((leadingDigits v).2 = [] →
      set_game_time host p =
        (.ok (), { p with requests := p.requests ++
          [.paramSet { ros := ros, name := "/game_length" } .nan,
           .callService { ros := ros, name := "clock_set", serviceType := "std_srvs/Empty" }] })) ∧
    ((leadingDigits v).2 ≠ [] →
      set_game_time host p =
        (.ok (), { p with requests := p.requests ++
          [.paramSet { ros := ros, name := "/game_length" }
            (toNumber (splitSign v.data).1 (digitsValue (leadingDigits v).1 (leadingDigits v).2)),
           .callService { ros := ros, name := "clock_set", serviceType := "std_srvs/Empty" }] }) ∧
      toNumber (splitSign v.data).1 (digitsValue (leadingDigits v).1 (leadingDigits v).2) ≠
        .nan) ∧
    (∀ (ws sg ds tail : List Char) (n : Nat), v.data = ws ++ sg ++ ds ++ tail →
      ws.all isStrWhiteSpace = true → (sg = [] ∨ sg = ['+'] ∨ sg = ['-']) →
      (String.mk ds).toNat? = some n →
      (∀ c, tail.head? = some c → c.isDigit = false ∧ c ≠ 'x' ∧ c ≠ 'X') →
      set_game_time host p =
        (.ok (), { p with requests := p.requests ++
          [.paramSet { ros := ros, name := "/game_length" } (toNumber (decide (sg = ['-'])) n),
           .callService { ros := ros, name := "clock_set", serviceType := "std_srvs/Empty" }] })) := by
  rw [set_game_time_eq host p el hel, hv]
  refine ⟨?_, ?_, ?_⟩
  · intro h
    simp [parseIntString, h, game_time_param, reset_srv]
  · intro h
    exact ⟨by simp [parseIntString, h, game_time_param, reset_srv], toNumber_ne_nan _ _⟩
  · intro ws sg ds tail n h1 h2 h3 h4 h5
    simp [parseIntString_decimal v ws sg ds tail n h1 h2 h3 h4 h5, game_time_param, reset_srv]

/-- The input abc: NaN is written, and `clock_set` is called. -/
theorem set_game_time_nan_witness :
    set_game_time sampleHost (load (sampleDom "abc") .connected) =
      (.ok (), { load (sampleDom "abc") .connected with requests :=
        (load (sampleDom "abc") .connected).requests ++
        [.paramSet { ros := ros, name := "/game_length" } .nan,
         .callService { ros := ros, name := "clock_set", serviceType := "std_srvs/Empty" }] }) :=
  (set_game_time_nan sampleHost (load (sampleDom "abc") .connected) ⟨some "abc", ""⟩ "abc"
    (by decide) rfl).1 (by decide)

/-! ## What a call from the host can change, and what holds from load on -/

theorem displayOnly_bind {α β : Type} (x : Script α) (f : α → Script β)
    (hx : ∀ p, DisplayOnly p (x p).2) (hf : ∀ a p, DisplayOnly p (f a p).2) (p : Page) :
    DisplayOnly p ((x >>= f) p).2 := by
  show DisplayOnly p (Script.bind x f p).2
  unfold Script.bind
  have h1 := hx p
  rcases hxp : x p with ⟨r, q⟩
  rw [hxp] at h1
  cases r with
  | error e => exact h1
  | ok a =>
    have h2 := hf a q
    simp only [DisplayOnly] at h1 h2 ⊢
    obtain ⟨a1, a2, a3, a4, a5, a6⟩ := h1
    obtain ⟨b1, b2, b3, b4, b5, b6⟩ := h2
    exact ⟨b1.trans a1, b2.trans a2, b3.trans a3, b4.trans a4, b5.trans a5, b6.trans a6⟩

theorem displayOnly_assign (host : Host) (id : String) (rhs : Except JSError JSVal) (p : Page) :
    DisplayOnly p (assignInnerHTML host id rhs p).2 := by
  unfold assignInnerHTML
  cases rhs with
  | error e => simp [DisplayOnly]
  | ok v =>
    cases hd : p.dom id with
    | none => simp [DisplayOnly]
    | some el => cases hv : toMarkup host v <;> simp [DisplayOnly, hv]

theorem displayOnly_statusCallback (host : Host) (m : JSVal) (p : Page) :
    DisplayOnly p (onStatusMessage host m p).2 := by
  unfold onStatusMessage
  refine displayOnly_bind _ _ (displayOnly_assign host _ _) (fun _ => ?_) p
  refine displayOnly_bind _ _ (displayOnly_assign host _ _) (fun _ => ?_)
  refine displayOnly_bind _ _ (displayOnly_assign host _ _) (fun _ => ?_)
  refine displayOnly_bind _ _ (fun q => by simp [Script.eval, DisplayOnly]) (fun _ q => ?_)
  simp [console_log, DisplayOnly]

/-- Every function of the script leaves the handlers, the interval functions,
the connections and the requests alone, except that the interval function adds
one callback on `statusListener`. -/
theorem call_registrations (host : Host) (fn : Closure) (arg : JSVal) (p : Page) :
    (fn.call host arg p).2.listeners = p.listeners ∧
    (fn.call host arg p).2.intervals = p.intervals ∧
    (fn.call host arg p).2.connections = p.connections ∧
    (fn.call host arg p).2.requests = p.requests ∧
    (fn.call host arg p).2.subscribers =
      p.subscribers ++
        (if fn = .intervalTick then [(statusListener, .statusCallback)] else []) := by
  cases fn
  case statusCallback =>
    obtain ⟨h1, h2, h3, h4, h5, _⟩ := displayOnly_statusCallback host arg p
    simp [Closure.call, h1, h2, h3, h4, h5]
  all_goals simp [Closure.call, console_log, subscribe]

theorem invoke_fields (body : Script Unit) (p : Page) :
    (invoke body p).listeners = (body p).2.listeners ∧
    (invoke body p).intervals = (body p).2.intervals ∧
    (invoke body p).connections = (body p).2.connections ∧
    (invoke body p).requests = (body p).2.requests ∧
    (invoke body p).subscribers = (body p).2.subscribers ∧
    (invoke body p).dom = (body p).2.dom ∧
    (invoke body p).log = (body p).2.log := by
  unfold invoke
  rcases body p with ⟨r, q⟩
  cases r <;> simp

/-- The registrations after a dispatch to listeners among which there is no
interval function. -/
theorem emit_registrations (host : Host) (fns : List Closure) (arg : JSVal) (p : Page)
    (hfns : ∀ fn ∈ fns, fn ≠ .intervalTick) :
    (emit host fns arg p).2.listeners = p.listeners ∧
    (emit host fns arg p).2.intervals = p.intervals ∧
    (emit host fns arg p).2.connections = p.connections ∧
    (emit host fns arg p).2.subscribers = p.subscribers := by
  induction fns generalizing p with
  | nil => simp [emit]
  | cons fn rest ih =>
    have hfn : fn ≠ .intervalTick := hfns fn (by simp)
    obtain ⟨c1, c2, c3, _, c5⟩ := call_registrations host fn arg p
    rw [if_neg hfn, List.append_nil] at c5
    unfold emit
    rcases hc : fn.call host arg p with ⟨r, q⟩
    rw [hc] at c1 c2 c3 c5
    cases r with
    | error e => exact ⟨c1, c2, c3, c5⟩
    | ok u =>
      obtain ⟨r1, r2, r3, r4⟩ := ih q (fun g hg => hfns g (by simp [hg]))
      exact ⟨r1.trans c1, r2.trans c2, r3.trans c3, r4.trans c5⟩

theorem set_game_time_registrations (host : Host) (p : Page) :
    (set_game_time host p).2.listeners = p.listeners ∧
    (set_game_time host p).2.intervals = p.intervals ∧
    (set_game_time host p).2.connections = p.connections ∧
    (set_game_time host p).2.subscribers = p.subscribers := by
  cases hel : p.dom "time-set" with
  | none => simp [set_game_time, Bind.bind, Script.bind, elementValue, hel]
  | some el => simp [set_game_time_eq host p el hel]

theorem emit_loaded (host : Host) (fns : List Closure) (arg : JSVal) (p : Page) (n : Nat)
    (h : Loaded p n) (hfns : ∀ fn ∈ fns, fn ≠ .intervalTick) :
    Loaded (invoke (emit host fns arg) p) n := by
  obtain ⟨hl, hi, hs, hc⟩ := h
  obtain ⟨r1, r2, r3, r4⟩ := emit_registrations host fns arg p hfns
  obtain ⟨i1, i2, i3, _, i5, _, _⟩ := invoke_fields (emit host fns arg) p
  exact ⟨(i1.trans r1).trans hl, (i2.trans r2).trans hi, (i5.trans r4).trans hs,
    by rw [i3, r3]; exact hc⟩

theorem withState_loaded (p : Page) (n : Nat) (st : ConnState) (h : Loaded p n) :
    Loaded (p.withState st) n := by
  obtain ⟨hl, hi, hs, hc⟩ := h
  refine ⟨hl, hi, hs, ?_⟩
  simp only [Page.withState, List.map_map]
  exact hc

theorem handlersOf_loaded (p : Page) (n : Nat) (h : Loaded p n) :
    handlersOf "connection" p = [.onConnection] ∧ handlersOf "error" p = [.onError] ∧
    handlersOf "close" p = [.onClose] := by
  simp [handlersOf, h.1]

theorem callbacksOf_loaded (p : Page) (n : Nat) (h : Loaded p n) :
    callbacksOf "/match_status" p = List.replicate n .statusCallback := by
  simp [callbacksOf, h.2.2.1, statusListener]

/-- One turn of the event loop keeps the registrations of the script, adding
one callback on a tick and none otherwise. -/
theorem step_loaded (host : Host) (ev : Event) (p : Page) (n : Nat) (h : Loaded p n) :
    Loaded (step host ev p) (n + if ev.isTick then 1 else 0) := by
  obtain ⟨h1, h2, h3⟩ := handlersOf_loaded p n h
  cases ev with
  | tick =>
    obtain ⟨hl, hi, hs, hc⟩ := h
    obtain ⟨c1, c2, c3, _, c5⟩ := call_registrations host .intervalTick .undefined p
    obtain ⟨i1, i2, i3, _, i5, _, _⟩ := invoke_fields (Closure.intervalTick.call host .undefined) p
    have e : step host .tick p = invoke (Closure.intervalTick.call host .undefined) p := by
      simp [step, hi, emit]
    rw [e]
    refine ⟨by rw [i1, c1, hl], by rw [i2, c2, hi], ?_, by rw [i3, c3, hc]⟩
    rw [i5, c5, hs]
    simp [Event.isTick, List.replicate_succ']
  | message m =>
    exact emit_loaded host _ m p n h
      (by rw [(callbacksOf_loaded p n h)]; intro fn hfn; rw [List.mem_replicate] at hfn
          rw [hfn.2]; decide)
  | setGameTime =>
    obtain ⟨hl, hi, hs, hc⟩ := h
    obtain ⟨r1, r2, r3, r4⟩ := set_game_time_registrations host p
    obtain ⟨i1, i2, i3, _, i5, _, _⟩ := invoke_fields (set_game_time host) p
    exact ⟨(i1.trans r1).trans hl, (i2.trans r2).trans hi, (i5.trans r4).trans hs,
      by show List.map _ (invoke (set_game_time host) p).connections = _; rw [i3, r3]; exact hc⟩
  | connection =>
    exact emit_loaded host _ .undefined _ n (withState_loaded p n .connected h)
      (by rw [h1]; simp)
  | error info =>
    exact emit_loaded host _ info _ n (withState_loaded p n .errored h) (by rw [h2]; simp)
  | close =>
    exact emit_loaded host _ .undefined _ n (withState_loaded p n .closed h) (by rw [h3]; simp)

theorem load_loaded (dom : String → Option Element) (st : ConnState) : Loaded (load dom st) 0 := by
  exact ⟨rfl, rfl, rfl, rfl⟩

theorem run_loaded (host : Host) (evs : List Event) (p : Page) (n : Nat) (h : Loaded p n) :
    Loaded (run host evs p) (n + ticks evs) := by
  induction evs generalizing p n with
  | nil => simpa [run, ticks] using h
  | cons ev rest ih =>
    have h1 := ih (step host ev p) _ (step_loaded host ev p n h)
    have e : run host (ev :: rest) p = run host rest (step host ev p) := rfl
    rw [e]
    have hn : n + ticks (ev :: rest) = n + (if ev.isTick then 1 else 0) + ticks rest := by
      cases hev : ev.isTick <;> simp [ticks, List.filter, hev]
      omega
    rw [hn]
    exact h1

/-- C7. Each lifecycle handler returns normally and changes the page in one
way only: the console gets exactly one more line. From load on, a connection,
error or close event therefore leaves the page as it was, but for the state of
the connection and that one line: no request, no further connection, no
callback and no display field. -/
theorem lifecycle_handlers_log_only (host : Host) (arg info : JSVal) (p : Page)
    (dom : String → Option Element) (st : ConnState) (evs : List Event) :
    Closure.onConnection.call host arg p =
      (.ok (), { p with log := p.log ++ [[.str "Connected to websocket server."]] }) ∧
    Closure.onError.call host info p =
      (.ok (), { p with log := p.log ++
        [[.str "Error connecting to websocket server: ", info]] }) ∧
    Closure.onClose.call host arg p =
      (.ok (), { p with log := p.log ++ [[.str "Connection to websocket server closed."]] }) ∧
    step host .connection (run host evs (load dom st)) =
      { (run host evs (load dom st)).withState .connected with
        log := (run host evs (load dom st)).log ++ [[.str "Connected to websocket server."]] } ∧
    step host (.error info) (run host evs (load dom st)) =
      { (run host evs (load dom st)).withState .errored with
        log := (run host evs (load dom st)).log ++
          [[.str "Error connecting to websocket server: ", info]] } ∧
    step host .close (run host evs (load dom st)) =
      { (run host evs (load dom st)).withState .closed with
        log := (run host evs (load dom st)).log ++
          [[.str "Connection to websocket server closed."]] } := by
  have h := run_loaded host evs (load dom st) 0 (load_loaded dom st)
  obtain ⟨h1, h2, h3⟩ := handlersOf_loaded _ _ h
  refine ⟨rfl, rfl, rfl, ?_, ?_, ?_⟩
  · simp only [step, h1]; rfl
  · simp only [step, h2]; rfl
  · simp only [step, h3]; rfl

/-- C8. Loading the script opens exactly one connection, to
`ws://172.17.0.2:9090`, whatever state `st` that connection is in while the top
level runs; the topic, the three services and the parameter are bound to that
connection and carry the documented names and types; and no later event opens
another connection. -/
theorem load_connection_and_handles (host : Host) (dom : String → Option Element)
    (st : ConnState) (evs : List Event) :
    (load dom st).connections = [{ url := "ws://172.17.0.2:9090", state := st }] ∧
    (main st (blank dom)).1 = .ok
      { ros := 0,
        statusListener :=
          { ros := 0, name := "/match_status", messageType := "rktl_msgs/MatchStatus" },
        pause_srv := { ros := 0, name := "pause_game", serviceType := "std_srvs/Empty" },
        unpause_srv := { ros := 0, name := "unpause_game", serviceType := "std_srvs/Empty" },
        reset_srv := { ros := 0, name := "clock_set", serviceType := "std_srvs/Empty" },
        game_time_param := { ros := 0, name := "/game_length" } } ∧
    (main st (blank dom)).1 = .ok
      { ros := ros, statusListener := statusListener, pause_srv := pause_srv,
        unpause_srv := unpause_srv, reset_srv := reset_srv,
        game_time_param := game_time_param } ∧
    (load dom st).connections.get? ros = some { url := "ws://172.17.0.2:9090", state := st } ∧
    (run host evs (load dom st)).connections.map (fun c => c.url) = ["ws://172.17.0.2:9090"] := by
  have h := run_loaded host evs (load dom st) 0 (load_loaded dom st)
  exact ⟨rfl, rfl, rfl, rfl, h.2.2.2⟩

/-! ## String conversion -/

mutual
theorem toStr_error_iff (host : Host) :
    ∀ v, toStr host v = .error .typeError ↔ unprintable v = true
  | .undefined => by simp [toStr, unprintable]
  | .null => by simp [toStr, unprintable]
  | .bool b => by simp [toStr, unprintable]
  | .num n => by simp [toStr, unprintable]
  | .str s => by simp [toStr, unprintable]
  | .arr items => by simp only [toStr, unprintable]; exact joinItems_error_iff host items
  | .obj fields => by by_cases h : hasField "toString" fields <;> simp [toStr, unprintable, h]
theorem joinItems_error_iff (host : Host) :
    ∀ items, joinItems host items = .error .typeError ↔ anyUnprintable items = true
  | [] => by simp [joinItems, anyUnprintable]
  | v :: rest => by
    have hv := toStr_error_iff host v
    have hr := fun acc => joinRest_error_iff host acc rest
    cases v with
    | undefined => simp only [joinItems, anyUnprintable, unprintable, Bool.false_or]; exact hr _
    | null => simp only [joinItems, anyUnprintable, unprintable, Bool.false_or]; exact hr _
    | bool b => simp only [joinItems, toStr, anyUnprintable, unprintable, Bool.false_or]; exact hr _
    | num n => simp only [joinItems, toStr, anyUnprintable, unprintable, Bool.false_or]; exact hr _
    | str s => simp only [joinItems, toStr, anyUnprintable, unprintable, Bool.false_or]; exact hr _
    | arr items =>
      simp only [joinItems, anyUnprintable, Bool.or_eq_true]
      rcases hs : toStr host (.arr items) with ⟨⟩ | s
      · simp [hv.mp hs]
      · have hn : ¬(unprintable (.arr items) = true) := fun h => by
          rw [hv.mpr h] at hs; cases hs
        simp only [hn, Bool.false_eq_true, false_or]; exact hr _
    | obj fields =>
      simp only [joinItems, anyUnprintable, Bool.or_eq_true]
      rcases hs : toStr host (.obj fields) with ⟨⟩ | s
      · simp [hv.mp hs]
      · have hn : ¬(unprintable (.obj fields) = true) := fun h => by
          rw [hv.mpr h] at hs; cases hs
        simp only [hn, Bool.false_eq_true, false_or]; exact hr _
theorem joinRest_error_iff (host : Host) (acc : String) :
    ∀ items, joinRest host acc items = .error .typeError ↔ anyUnprintable items = true
  | [] => by simp [joinRest, anyUnprintable]
  | v :: rest => by
    have hv := toStr_error_iff host v
    have hr := fun acc => joinRest_error_iff host acc rest
    cases v with
    | undefined => simp only [joinRest, anyUnprintable, unprintable, Bool.false_or]; exact hr _
    | null => simp only [joinRest, anyUnprintable, unprintable, Bool.false_or]; exact hr _
    | bool b => simp only [joinRest, toStr, anyUnprintable, unprintable, Bool.false_or]; exact hr _
    | num n => simp only [joinRest, toStr, anyUnprintable, unprintable, Bool.false_or]; exact hr _
    | str s => simp only [joinRest, toStr, anyUnprintable, unprintable, Bool.false_or]; exact hr _
    | arr items =>
      simp only [joinRest, anyUnprintable, Bool.or_eq_true]
      rcases hs : toStr host (.arr items) with ⟨⟩ | s
      · simp [hv.mp hs]
      · have hn : ¬(unprintable (.arr items) = true) := fun h => by
          rw [hv.mpr h] at hs; cases hs
        simp only [hn, Bool.false_eq_true, false_or]; exact hr _
    | obj fields =>
      simp only [joinRest, anyUnprintable, Bool.or_eq_true]
      rcases hs : toStr host (.obj fields) with ⟨⟩ | s
      · simp [hv.mp hs]
      · have hn : ¬(unprintable (.obj fields) = true) := fun h => by
          rw [hv.mpr h] at hs; cases hs
        simp only [hn, Bool.false_eq_true, false_or]; exact hr _
end

theorem toMarkup_error_iff (host : Host) (v : JSVal) :
    toMarkup host v = .error .typeError ↔ unprintable v = true := by
  cases v <;> first | exact toStr_error_iff host _ | simp [toMarkup, unprintable]

/-! ## The delivery callback on arbitrary messages -/

theorem get_error_iff (v : JSVal) (f : Field) :
    v.get f = .error .typeError ↔ v = .undefined ∨ v = .null := by
  cases v <;> simp [JSVal.get]

theorem get_ok_of_ne (v : JSVal) (f : Field) (h1 : v ≠ .undefined) (h2 : v ≠ .null) :
    ∃ w, v.get f = .ok w := by
  cases v <;> simp_all [JSVal.get]

theorem scoreField_error_iff (m : JSVal) (f : Field) :
    scoreField m f = .error .typeError ↔ ScoreUnreadable m := by
  unfold scoreField ScoreUnreadable
  cases hs : m.get .score with
  | error e =>
    cases e
    have := (get_error_iff m .score).mp hs
    simp [this]
  | ok score =>
    have h1 : m ≠ .undefined := by rintro rfl; simp [JSVal.get] at hs
    have h2 : m ≠ .null := by rintro rfl; simp [JSVal.get] at hs
    simp only [get_error_iff, h1, h2, false_or, Except.ok.injEq]

theorem statusCallback_unreadable (host : Host) (m : JSVal) (p : Page) (h : ScoreUnreadable m) :
    onStatusMessage host m p = (.error .typeError, p) := by
  have hb := (scoreField_error_iff m .blue).mpr h
  simp [onStatusMessage, Bind.bind, Script.bind, assignInnerHTML, hb]

/-- C6, as stated, fails: a message without `clock` and `status` does not have
the expected shape, yet the callback returns normally on it, writing the text
`undefined` to the timer and logging `undefined`. -/
theorem statusCallback_malformed_counterexample :
    hasExpectedShape scoreOnlyMessage = false ∧
    (onStatusMessage sampleHost scoreOnlyMessage (load (sampleDom "") .connected)).1 = .ok () ∧
    markupOf (onStatusMessage sampleHost scoreOnlyMessage (load (sampleDom "") .connected)).2
      "timer" = some "undefined" := by
  refine ⟨by decide, rfl, rfl⟩

/-- C6, amended. When the message or its `score` is `null` or `undefined`
(missing), the callback throws a `TypeError` before it changed anything, and
does not catch it: the exception ends the call and reaches the default handler
of the host. -/
theorem statusCallback_unreadable_throws (host : Host) (m : JSVal) (p : Page)
    (h : ScoreUnreadable m) :
    onStatusMessage host m p = (.error .typeError, p) ∧
    invoke (onStatusMessage host m) p = { p with uncaught := p.uncaught ++ [.typeError] } := by
  have e := statusCallback_unreadable host m p h
  exact ⟨e, by simp [invoke, e]⟩

/-- A message without `score`: the callback throws and the page is untouched. -/
theorem statusCallback_unreadable_throws_witness :
    onStatusMessage sampleHost (.obj [("clock", .num (.fin false 90 0))])
        (load (sampleDom "") .connected) =
      (.error .typeError, load (sampleDom "") .connected) ∧
    invoke (onStatusMessage sampleHost (.obj [("clock", .num (.fin false 90 0))]))
        (load (sampleDom "") .connected) =
      { load (sampleDom "") .connected with uncaught := [.typeError] } :=
  statusCallback_unreadable_throws sampleHost (.obj [("clock", .num (.fin false 90 0))])
    (load (sampleDom "") .connected) (Or.inr (Or.inr (Or.inl rfl)))

theorem scoreField_ok_of_readable (m : JSVal) (f : Field) (h : ¬ScoreUnreadable m) :
    ∃ v, scoreField m f = .ok v := by
  cases hf : scoreField m f with
  | error e => cases e; exact absurd ((scoreField_error_iff m f).mp hf) h
  | ok v => exact ⟨v, rfl⟩

theorem get_ok_of_readable (m : JSVal) (f : Field) (h : ¬ScoreUnreadable m) :
    ∃ v, m.get f = .ok v :=
  get_ok_of_ne m f (fun e => h (Or.inl e)) (fun e => h (Or.inr (Or.inl e)))

/-- The four ways the callback can go on a message whose `score` can be read,
when the three display elements exist: the conversion of `score.blue` throws,
or that of `score.orange`, or that of `clock`, or the callback returns. -/
theorem statusCallback_cases (host : Host) (m : JSVal) (p : Page) (e1 e2 e3 : Element)
    (he1 : p.dom "blue-score" = some e1) (he2 : p.dom "orange-score" = some e2)
    (he3 : p.dom "timer" = some e3) (hu : ¬ScoreUnreadable m) :
    ∃ vb vo vc vs, scoreField m .blue = .ok vb ∧ scoreField m .orange = .ok vo ∧
      m.get .clock = .ok vc ∧ m.get .status = .ok vs ∧
      ((toMarkup host vb = .error .typeError ∧
          onStatusMessage host m p = (.error .typeError, p)) ∨
       (∃ sb, toMarkup host vb = .ok sb ∧ toMarkup host vo = .error .typeError ∧
          onStatusMessage host m p =
            (.error .typeError, { p with dom := setMarkup p.dom "blue-score" e1 sb })) ∨
       (∃ sb so, toMarkup host vb = .ok sb ∧ toMarkup host vo = .ok so ∧
          toMarkup host vc = .error .typeError ∧
          onStatusMessage host m p =
            (.error .typeError,
              { p with dom := setMarkup (setMarkup p.dom "blue-score" e1 sb) "orange-score" e2 so })) ∨
       (∃ sb so sc, toMarkup host vb = .ok sb ∧ toMarkup host vo = .ok so ∧
          toMarkup host vc = .ok sc ∧
          onStatusMessage host m p =
            (.ok (), { p with
              dom := setMarkup (setMarkup (setMarkup p.dom "blue-score" e1 sb)
                "orange-score" e2 so) "timer" e3 sc,
              log := p.log ++ [[vs]] }))) := by
  obtain ⟨vb, hb⟩ := scoreField_ok_of_readable m .blue hu
  obtain ⟨vo, ho⟩ := scoreField_ok_of_readable m .orange hu
  obtain ⟨vc, hc⟩ := get_ok_of_readable m .clock hu
  obtain ⟨vs, hs⟩ := get_ok_of_readable m .status hu
  refine ⟨vb, vo, vc, vs, hb, ho, hc, hs, ?_⟩
  rcases hsb : toMarkup host vb with ⟨⟩ | sb
  · left
    simp [onStatusMessage, Bind.bind, Script.bind, assignInnerHTML, hb, he1, hsb]
  · right
    rcases hso : toMarkup host vo with ⟨⟩ | so
    · left
      simp [onStatusMessage, Bind.bind, Script.bind, assignInnerHTML, hb, ho, he1, he2, hsb, hso,
        setMarkup]
    · right
      rcases hsc : toMarkup host vc with ⟨⟩ | sc
      · left
        simp [onStatusMessage, Bind.bind, Script.bind, assignInnerHTML, hb, ho, hc, he1, he2, he3,
          hsb, hso, hsc, setMarkup]
      · right
        simp [onStatusMessage, Bind.bind, Script.bind, assignInnerHTML, Script.eval, console_log,
          hb, ho, hc, hs, he1, he2, he3, hsb, hso, hsc, setMarkup]

/-- C9, as stated, fails: neither the message nor its `score` is `null` or
`undefined`, the three display elements exist, and yet the callback throws,
after it has overwritten `blue-score` (from the empty text to `1`). -/
theorem statusCallback_shadowed_counterexample :
    ¬ScoreUnreadable shadowedMessage ∧
    HasDisplay (load (sampleDom "") .connected) ∧
    (onStatusMessage sampleHost shadowedMessage (load (sampleDom "") .connected)).1 =
      .error .typeError ∧
    markupOf (load (sampleDom "") .connected) "blue-score" = some "" ∧
    markupOf (onStatusMessage sampleHost shadowedMessage (load (sampleDom "") .connected)).2
      "blue-score" = some "1" := by
  refine ⟨?_, ⟨rfl, rfl, rfl⟩, rfl, rfl, rfl⟩
  simp [ScoreUnreadable, shadowedMessage, JSVal.get, lookupField, Field.key]

/-- C9, amended. With the three display elements present, the callback throws
exactly when the message or its `score` is `null` or `undefined`, or when
`score.blue`, `score.orange` or `clock` cannot be converted to a string (it is
an object with an own `toString` property, or an array holding one). In the
first case the page is left as it was; in every failing case nothing is
logged. When the callback does not throw, the three fields hold the string
conversions of the three values and `status` is logged once; a missing value
is `undefined`, whose conversion is the text `undefined`. When the conversion
of `score.orange` throws, `blue-score` has been overwritten already, and when
that of `clock` throws, `blue-score` and `orange-score` have been. -/
theorem statusCallback_failure (host : Host) (m : JSVal) (p : Page) (hd : HasDisplay p) :
    ((onStatusMessage host m p).1 = .error .typeError ↔
      ScoreUnreadable m ∨ ∃ v, (scoreField m .blue = .ok v ∨ scoreField m .orange = .ok v ∨
        m.get .clock = .ok v) ∧ unprintable v = true) ∧
    (ScoreUnreadable m → onStatusMessage host m p = (.error .typeError, p)) ∧
    ((onStatusMessage host m p).1 = .error .typeError →
      (onStatusMessage host m p).2.log = p.log) ∧
    ((onStatusMessage host m p).1 = .ok () →
      ∃ vb vo vc vs sb so sc, scoreField m .blue = .ok vb ∧ scoreField m .orange = .ok vo ∧
        m.get .clock = .ok vc ∧ m.get .status = .ok vs ∧
        toMarkup host vb = .ok sb ∧ toMarkup host vo = .ok so ∧ toMarkup host vc = .ok sc ∧
        markupOf (onStatusMessage host m p).2 "blue-score" = some sb ∧
        markupOf (onStatusMessage host m p).2 "orange-score" = some so ∧
        markupOf (onStatusMessage host m p).2 "timer" = some sc ∧
        (onStatusMessage host m p).2.log = p.log ++ [[vs]]) ∧
    toMarkup host .undefined = .ok "undefined" ∧
    (∀ vb sb vo, scoreField m .blue = .ok vb → toMarkup host vb = .ok sb →
      scoreField m .orange = .ok vo → unprintable vo = true →
      (onStatusMessage host m p).1 = .error .typeError ∧
      markupOf (onStatusMessage host m p).2 "blue-score" = some sb) ∧
    (∀ vb sb vo so vc, scoreField m .blue = .ok vb → toMarkup host vb = .ok sb →
      scoreField m .orange = .ok vo → toMarkup host vo = .ok so →
      m.get .clock = .ok vc → unprintable vc = true →
      (onStatusMessage host m p).1 = .error .typeError ∧
      markupOf (onStatusMessage host m p).2 "blue-score" = some sb ∧
      markupOf (onStatusMessage host m p).2 "orange-score" = some so) := by
  obtain ⟨d1, d2, d3⟩ := hd
  obtain ⟨e1, he1⟩ := Option.isSome_iff_exists.mp d1
  obtain ⟨e2, he2⟩ := Option.isSome_iff_exists.mp d2
  obtain ⟨e3, he3⟩ := Option.isSome_iff_exists.mp d3
  simp only [← toMarkup_error_iff host]
  refine ⟨?_, statusCallback_unreadable host m p, ?_, ?_, rfl, ?orange, ?clock⟩
  case orange =>
    intro vb sb vo hb hsb ho hvo
    have hu : ¬ScoreUnreadable m := fun h => by
      rw [(scoreField_error_iff m .blue).mpr h] at hb; cases hb
    obtain ⟨vb1, vo1, vc1, vs1, hb1, ho1, hc1, hs1, hcase⟩ :=
      statusCallback_cases host m p e1 e2 e3 he1 he2 he3 hu
    rw [hb] at hb1; cases hb1
    rw [ho] at ho1; cases ho1
    rcases hcase with ⟨hsb1, hr⟩ | ⟨sb1, hsb1, hso1, hr⟩ | ⟨sb1, so1, hsb1, hso1, hsc1, hr⟩ |
      ⟨sb1, so1, sc1, hsb1, hso1, hsc1, hr⟩
    · rw [hsb] at hsb1; cases hsb1
    · rw [hsb] at hsb1; cases hsb1
      rw [hr]
      exact ⟨rfl, by simp [markupOf, setMarkup]⟩
    · rw [hvo] at hso1; cases hso1
    · rw [hvo] at hso1; cases hso1
  case clock =>
    intro vb sb vo so vc hb hsb ho hso hc hvc
    have hu : ¬ScoreUnreadable m := fun h => by
      rw [(scoreField_error_iff m .blue).mpr h] at hb; cases hb
    obtain ⟨vb1, vo1, vc1, vs1, hb1, ho1, hc1, hs1, hcase⟩ :=
      statusCallback_cases host m p e1 e2 e3 he1 he2 he3 hu
    rw [hb] at hb1; cases hb1
    rw [ho] at ho1; cases ho1
    rw [hc] at hc1; cases hc1
    rcases hcase with ⟨hsb1, hr⟩ | ⟨sb1, hsb1, hso1, hr⟩ | ⟨sb1, so1, hsb1, hso1, hsc1, hr⟩ |
      ⟨sb1, so1, sc1, hsb1, hso1, hsc1, hr⟩
    · rw [hsb] at hsb1; cases hsb1
    · rw [hso] at hso1; cases hso1
    · rw [hsb] at hsb1; cases hsb1
      rw [hso] at hso1; cases hso1
      rw [hr]
      exact ⟨rfl, by simp [markupOf, setMarkup], by simp [markupOf, setMarkup]⟩
    · rw [hvc] at hsc1; cases hsc1
  all_goals
    by_cases hu : ScoreUnreadable m
    · simp [statusCallback_unreadable host m p hu, hu]
    · obtain ⟨vb, vo, vc, vs, hb, ho, hc, hs, hcase⟩ :=
        statusCallback_cases host m p e1 e2 e3 he1 he2 he3 hu
      rcases hcase with ⟨hsb, hr⟩ | ⟨sb, hsb, hso, hr⟩ | ⟨sb, so, hsb, hso, hsc, hr⟩ |
        ⟨sb, so, sc, hsb, hso, hsc, hr⟩
      · simp only [hr, hu, hb, ho, hc, hs, false_or, true_iff, forall_true_left, Except.ok.injEq]
        try first
          | exact ⟨vb, Or.inl rfl, hsb⟩
          | (intro hok; exact absurd hok (by simp))
      · simp only [hr, hu, hb, ho, hc, hs, false_or, true_iff, forall_true_left, Except.ok.injEq]
        try first
          | exact ⟨vo, Or.inr (Or.inl rfl), hso⟩
          | (intro hok; exact absurd hok (by simp))
      · simp only [hr, hu, hb, ho, hc, hs, false_or, true_iff, forall_true_left, Except.ok.injEq]
        try first
          | exact ⟨vc, Or.inr (Or.inr rfl), hsc⟩
          | (intro hok; exact absurd hok (by simp))
      · simp only [hr, hu, hb, ho, hc, hs, false_or, Except.ok.injEq]
        first
          | (simp only [reduceCtorEq, false_iff, not_exists, not_and]
             rintro v (rfl | rfl | rfl) <;> simp [hsb, hso, hsc])
          | simp [markupOf, setMarkup, hsb, hso, hsc]

/-- The failure condition at the message whose `score.orange` shadows `toString`. -/
theorem statusCallback_failure_witness :
    (onStatusMessage sampleHost shadowedMessage (load (sampleDom "") .connected)).1 =
        .error .typeError ↔
      ScoreUnreadable shadowedMessage ∨
        ∃ v, (scoreField shadowedMessage .blue = .ok v ∨
          scoreField shadowedMessage .orange = .ok v ∨ shadowedMessage.get .clock = .ok v) ∧
          unprintable v = true :=
  (statusCallback_failure sampleHost shadowedMessage (load (sampleDom "") .connected)
    ⟨rfl, rfl, rfl⟩).1

/-! ## Repeated delivery -/

/-- The page a valid message leaves behind. -/
theorem validMessage_result (host : Host) (m : JSVal) (blue orange clock : JSNum)
    (status : JSVal) (p : Page) (e1 e2 e3 : Element)
    (hm : IsMatchStatus m blue orange clock status)
    (he1 : p.dom "blue-score" = some e1) (he2 : p.dom "orange-score" = some e2)
    (he3 : p.dom "timer" = some e3) :
    onStatusMessage host m p =
      (.ok (), { p with
        dom := setMarkup (setMarkup (setMarkup p.dom "blue-score" e1 (host.numberToString blue))
          "orange-score" e2 (host.numberToString orange)) "timer" e3 (host.numberToString clock),
        log := p.log ++ [[status]] }) := by
  obtain ⟨score, h1, h2, h3, h4, h5⟩ := hm
  simp [onStatusMessage, Bind.bind, Script.bind, assignInnerHTML, Script.eval, console_log,
    scoreField, h1, h2, h3, h4, h5, he1, he2, he3, toMarkup, toStr, setMarkup]

theorem invoke_ok (body : Script Unit) (p q : Page) (h : body p = (.ok (), q)) :
    invoke body p = q := by
  simp [invoke, h]

/-- One delivery of a valid message: the display elements stay, the console
gets the status, and a second delivery leaves the document as the first did. -/
theorem invoke_valid (host : Host) (m : JSVal) (blue orange clock : JSNum) (status : JSVal)
    (p : Page) (hm : IsMatchStatus m blue orange clock status) (hd : HasDisplay p) :
    HasDisplay (invoke (onStatusMessage host m) p) ∧
    (invoke (onStatusMessage host m) p).log = p.log ++ [[status]] ∧
    (invoke (onStatusMessage host m) (invoke (onStatusMessage host m) p)).dom =
      (invoke (onStatusMessage host m) p).dom := by
  obtain ⟨d1, d2, d3⟩ := hd
  obtain ⟨e1, he1⟩ := Option.isSome_iff_exists.mp d1
  obtain ⟨e2, he2⟩ := Option.isSome_iff_exists.mp d2
  obtain ⟨e3, he3⟩ := Option.isSome_iff_exists.mp d3
  have hq := invoke_ok _ _ _
    (validMessage_result host m blue orange clock status p e1 e2 e3 hm he1 he2 he3)
  generalize invoke (onStatusMessage host m) p = q at hq ⊢
  have g1 : q.dom "blue-score" = some { e1 with innerHTML := host.numberToString blue } := by
    rw [hq]; simp [setMarkup]
  have g2 : q.dom "orange-score" = some { e2 with innerHTML := host.numberToString orange } := by
    rw [hq]; simp [setMarkup]
  have g3 : q.dom "timer" = some { e3 with innerHTML := host.numberToString clock } := by
    rw [hq]; simp [setMarkup]
  refine ⟨⟨by simp [g1], by simp [g2], by simp [g3]⟩, by rw [hq], ?_⟩
  rw [invoke_ok _ _ _ (validMessage_result host m blue orange clock status q _ _ _ hm g1 g2 g3)]
  simp only
  funext j
  by_cases h1 : j = "timer"
  · simp [setMarkup, h1, g3]
  · by_cases h2 : j = "orange-score"
    · simp [setMarkup, h2, g2]
    · by_cases h3 : j = "blue-score"
      · simp [setMarkup, h3, g1]
      · simp [setMarkup, h1, h2, h3]

theorem iterate_valid (host : Host) (m : JSVal) (blue orange clock : JSNum) (status : JSVal)
    (hm : IsMatchStatus m blue orange clock status) (k : Nat) :
    ∀ p, HasDisplay p →
      ((invoke (onStatusMessage host m))^[k + 1] p).dom = (invoke (onStatusMessage host m) p).dom ∧
      ((invoke (onStatusMessage host m))^[k] p).log = p.log ++ List.replicate k [status] := by
  induction k with
  | zero => intro p _; simp
  | succ k ih =>
    intro p hd
    obtain ⟨hd1, hl1, hi1⟩ := invoke_valid host m blue orange clock status p hm hd
    obtain ⟨ih1, ih2⟩ := ih (invoke (onStatusMessage host m) p) hd1
    constructor
    · rw [Function.iterate_succ_apply, ih1, hi1]
    · rw [Function.iterate_succ_apply, ih2, hl1, List.replicate_succ]
      simp

/-- A dispatch of a valid message to `n` registrations of the callback runs
it `n` times, each run returning normally. -/
theorem emit_valid (host : Host) (m : JSVal) (blue orange clock : JSNum) (status : JSVal)
    (hm : IsMatchStatus m blue orange clock status) (n : Nat) :
    ∀ p, HasDisplay p →
      invoke (emit host (List.replicate n .statusCallback) m) p =
        (invoke (onStatusMessage host m))^[n] p := by
  induction n with
  | zero => intro p _; rfl
  | succ k ih =>
    intro p hd
    obtain ⟨hd1, _, _⟩ := invoke_valid host m blue orange clock status p hm hd
    obtain ⟨d1, d2, d3⟩ := hd
    obtain ⟨e1, he1⟩ := Option.isSome_iff_exists.mp d1
    obtain ⟨e2, he2⟩ := Option.isSome_iff_exists.mp d2
    obtain ⟨e3, he3⟩ := Option.isSome_iff_exists.mp d3
    have hr := validMessage_result host m blue orange clock status p e1 e2 e3 hm he1 he2 he3
    have hq := invoke_ok _ _ _ hr
    have e : emit host (List.replicate (k + 1) .statusCallback) m p =
        emit host (List.replicate k .statusCallback) m (invoke (onStatusMessage host m) p) := by
      rw [hq, List.replicate_succ]
      show (match onStatusMessage host m p with
        | (.ok _, q) => emit host (List.replicate k .statusCallback) m q
        | (.error e, q) => (.error e, q)) = _
      rw [hr]
    have e2 : invoke (emit host (List.replicate (k + 1) .statusCallback) m) p =
        invoke (emit host (List.replicate k .statusCallback) m)
          (invoke (onStatusMessage host m) p) := by
      unfold invoke
      rw [e]
      rfl
    rw [e2, ih _ hd1, Function.iterate_succ_apply]

/-- C10. On a page that has the three display elements and `n` registrations
of the callback on `/match_status`, a valid message delivered to all of them
leaves the document exactly as one run of the callback does, when `n` is at
least one; the console gets the status `n` times instead of once; and with no
registration the message changes nothing. -/
theorem display_update_idempotent (host : Host) (m : JSVal) (blue orange clock : JSNum)
    (status : JSVal) (p : Page) (n : Nat) (hm : IsMatchStatus m blue orange clock status)
    (hd : HasDisplay p)
    (hs : p.subscribers = List.replicate n (statusListener, .statusCallback)) :
    (1 ≤ n → (step host (.message m) p).dom = (invoke (onStatusMessage host m) p).dom) ∧
    (step host (.message m) p).log = p.log ++ List.replicate n [status] ∧
    (invoke (onStatusMessage host m) p).log = p.log ++ [[status]] ∧
    (n = 0 → step host (.message m) p = p) := by
  have hc : callbacksOf "/match_status" p = List.replicate n .statusCallback := by
    simp [callbacksOf, hs, statusListener]
  have e : step host (.message m) p = (invoke (onStatusMessage host m))^[n] p := by
    show invoke (emit host (callbacksOf "/match_status" p) m) p = _
    rw [hc]
    exact emit_valid host m blue orange clock status hm n p hd
  rw [e]
  refine ⟨?_, (iterate_valid host m blue orange clock status hm n p hd).2,
    (invoke_valid host m blue orange clock status p hm hd).2.1, ?_⟩
  · intro hn
    obtain ⟨k, rfl⟩ : ∃ k, n = k + 1 := ⟨n - 1, by omega⟩
    exact (iterate_valid host m blue orange clock status hm k p hd).1
  · rintro rfl
    rfl

/-- Three ticks, then the sample message: the document is as after one run of the callback, the console holds the status three times. -/
theorem display_update_idempotent_witness :
    (step sampleHost (.message sampleMessage)
        (run sampleHost [.tick, .tick, .tick] (load (sampleDom "") .connected))).dom =
      (invoke (onStatusMessage sampleHost sampleMessage)
        (run sampleHost [.tick, .tick, .tick] (load (sampleDom "") .connected))).dom ∧
    (step sampleHost (.message sampleMessage)
        (run sampleHost [.tick, .tick, .tick] (load (sampleDom "") .connected))).log =
      [[.str "running"], [.str "running"], [.str "running"]] :=
  have h := display_update_idempotent sampleHost sampleMessage (.fin false 1 0) (.fin false 2 0)
    (.fin false 90 0) (.str "running")
    (run sampleHost [.tick, .tick, .tick] (load (sampleDom "") .connected)) 3
    ⟨_, rfl, rfl, rfl, rfl, rfl⟩ ⟨rfl, rfl, rfl⟩ rfl
  ⟨h.1 (by decide), h.2.1⟩

/-! ## Dispatch of one message to the registered callbacks -/

theorem bind_apply {α β : Type} (x : Script α) (f : α → Script β) (p : Page) :
    (x >>= f) p =
      match x p with
      | (.ok a, q) => f a q
      | (.error e, q) => (.error e, q) := rfl

/-- One assignment to `innerHTML`: it logs nothing, it keeps the elements of
the document, and it succeeds exactly when the element exists and the value
can be read and converted. -/
theorem assign_spec (host : Host) (id : String) (rhs : Except JSError JSVal) (p : Page) :
    (assignInnerHTML host id rhs p).2.log = p.log ∧
    (∀ j, ((assignInnerHTML host id rhs p).2.dom j).isSome = (p.dom j).isSome) ∧
    ((assignInnerHTML host id rhs p).1 = .ok () ↔
      (p.dom id).isSome = true ∧ ∃ v s, rhs = .ok v ∧ toMarkup host v = .ok s) := by
  cases rhs with
  | error e => simp [assignInnerHTML]
  | ok v =>
    cases hd : p.dom id with
    | none => simp [assignInnerHTML, hd]
    | some el =>
      cases hv : toMarkup host v with
      | error e => simp [assignInnerHTML, hd, hv]
      | ok s =>
        have e : assignInnerHTML host id (.ok v) p =
            (.ok (), { p with dom := setMarkup p.dom id el s }) := by
          simp [assignInnerHTML, hd, hv]
        rw [e]
        refine ⟨rfl, ?_, ?_⟩
        · intro j
          by_cases hj : j = id
          · simp [setMarkup, hj, hd]
          · simp [setMarkup, hj]
        · simp [hv]

/-- The delivery callback on any message and any page: it returns normally
exactly when the three display elements exist and the message can be shown;
it keeps the elements of the document; it logs the status once when it
returns, and nothing when it throws. -/
theorem statusCallback_spec (host : Host) (m : JSVal) (p : Page) :
    ((onStatusMessage host m p).1 = .ok () ↔ HasDisplay p ∧ Deliverable host m) ∧
    (∀ j, ((onStatusMessage host m p).2.dom j).isSome = (p.dom j).isSome) ∧
    ((onStatusMessage host m p).1 = .ok () →
      ∃ vs, m.get .status = .ok vs ∧ (onStatusMessage host m p).2.log = p.log ++ [[vs]]) ∧
    ((onStatusMessage host m p).1 = .error .typeError →
      (onStatusMessage host m p).2.log = p.log) := by
  unfold onStatusMessage HasDisplay Deliverable
  obtain ⟨l1, d1, o1⟩ := assign_spec host "blue-score" (scoreField m .blue) p
  simp only [bind_apply]
  rcases h1 : assignInnerHTML host "blue-score" (scoreField m .blue) p with ⟨r1, p1⟩
  rw [h1] at l1 d1 o1
  cases r1 with
  | error e =>
    cases e
    simp only [reduceCtorEq, false_iff] at o1
    dsimp only
    exact ⟨⟨nofun, fun h => (o1 ⟨h.1.1, h.2.1⟩).elim⟩, d1, nofun, fun _ => l1⟩
  | ok u1 =>
    obtain ⟨b1, b2⟩ := o1.mp rfl
    obtain ⟨l2, d2, o2⟩ := assign_spec host "orange-score" (scoreField m .orange) p1
    dsimp only
    rcases h2 : assignInnerHTML host "orange-score" (scoreField m .orange) p1 with ⟨r2, p2⟩
    rw [h2] at l2 d2 o2
    dsimp only at d1 l1 d2 l2 o2
    rw [d1] at o2
    cases r2 with
    | error e =>
      cases e
      simp only [reduceCtorEq, false_iff] at o2
      dsimp only
      exact ⟨⟨nofun, fun h => (o2 ⟨h.1.2.1, h.2.2.1⟩).elim⟩,
        fun j => (d2 j).trans (d1 j), nofun, fun _ => l2.trans l1⟩
    | ok u2 =>
      obtain ⟨c1, c2⟩ := o2.mp rfl
      obtain ⟨l3, d3, o3⟩ := assign_spec host "timer" (m.get .clock) p2
      dsimp only
      rcases h3 : assignInnerHTML host "timer" (m.get .clock) p2 with ⟨r3, p3⟩
      rw [h3] at l3 d3 o3
      dsimp only at d3 l3 o3
      rw [d2, d1] at o3
      cases r3 with
      | error e =>
        cases e
        simp only [reduceCtorEq, false_iff] at o3
        dsimp only
        exact ⟨⟨nofun, fun h => (o3 ⟨h.1.2.2, h.2.2.2.1⟩).elim⟩,
          fun j => ((d3 j).trans (d2 j)).trans (d1 j), nofun,
          fun _ => (l3.trans l2).trans l1⟩
      | ok u3 =>
        obtain ⟨t1, t2⟩ := o3.mp rfl
        simp only [Script.eval, console_log]
        cases hs : m.get .status with
        | error e =>
          cases e
          dsimp only
          exact ⟨⟨nofun, fun h => by obtain ⟨vs, hvs⟩ := h.2.2.2.2; cases hvs⟩,
            fun j => ((d3 j).trans (d2 j)).trans (d1 j), nofun,
            fun _ => (l3.trans l2).trans l1⟩
        | ok vs =>
          dsimp only
          refine ⟨⟨fun _ => ⟨⟨b1, c1, t1⟩, b2, c2, t2, vs, rfl⟩, fun _ => rfl⟩,
            fun j => ((d3 j).trans (d2 j)).trans (d1 j), fun _ => ⟨vs, rfl, ?_⟩, nofun⟩
          rw [l3, l2, l1]

/-- A run of the callback that returns on a page returns on the page it
leaves as well. -/
theorem statusCallback_ok_again (host : Host) (m : JSVal) (p : Page)
    (h : (onStatusMessage host m p).1 = .ok ()) :
    (onStatusMessage host m (onStatusMessage host m p).2).1 = .ok () := by
  obtain ⟨o1, d1, _, _⟩ := statusCallback_spec host m p
  obtain ⟨o2, _, _, _⟩ := statusCallback_spec host m (onStatusMessage host m p).2
  obtain ⟨⟨a1, a2, a3⟩, hdel⟩ := o1.mp h
  exact o2.mpr ⟨⟨by rw [d1]; exact a1, by rw [d1]; exact a2, by rw [d1]; exact a3⟩, hdel⟩

/-- When the callback returns on the message, the dispatch to `n`
registrations runs it `n` times in a row and returns. -/
theorem emit_ok (host : Host) (m : JSVal) (n : Nat) :
    ∀ p, (onStatusMessage host m p).1 = .ok () →
      emit host (List.replicate n .statusCallback) m p =
        (.ok (), (fun q => (onStatusMessage host m q).2)^[n] p) := by
  induction n with
  | zero => intro p _; rfl
  | succ k ih =>
    intro p h
    have h2 := statusCallback_ok_again host m p h
    rw [Function.iterate_succ_apply, ← ih _ h2, List.replicate_succ]
    show (match onStatusMessage host m p with
      | (.ok _, q) => emit host (List.replicate k .statusCallback) m q
      | (.error e, q) => (.error e, q)) = _
    rcases hr : onStatusMessage host m p with ⟨r, q⟩
    rw [hr] at h
    dsimp only at h ⊢
    rw [h]

/-- When the callback throws on the message, the dispatch ends with its first
run, whatever the number of registrations behind it. -/
theorem emit_error (host : Host) (m : JSVal) (n : Nat) (p : Page)
    (h : (onStatusMessage host m p).1 = .error .typeError) :
    emit host (List.replicate (n + 1) .statusCallback) m p =
      (.error .typeError, (onStatusMessage host m p).2) := by
  rw [List.replicate_succ]
  show (match onStatusMessage host m p with
    | (.ok _, q) => emit host (List.replicate n .statusCallback) m q
    | (.error e, q) => (.error e, q)) = _
  rcases hr : onStatusMessage host m p with ⟨r, q⟩
  rw [hr] at h
  dsimp only at h ⊢
  rw [h]

/-- The console after `n` runs in a row, each of which returns. -/
theorem iterate_ok_log (host : Host) (m vs : JSVal) (hs : m.get .status = .ok vs) (n : Nat) :
    ∀ p, (onStatusMessage host m p).1 = .ok () →
      ((fun q => (onStatusMessage host m q).2)^[n] p).log = p.log ++ List.replicate n [vs] := by
  induction n with
  | zero => intro p _; simp
  | succ k ih =>
    intro p h
    obtain ⟨_, _, l1, _⟩ := statusCallback_spec host m p
    obtain ⟨ws, hws, hl⟩ := l1 h
    rw [hs] at hws
    cases hws
    rw [Function.iterate_succ_apply, ih _ (statusCallback_ok_again host m p h), hl,
      List.replicate_succ]
    simp

/-- C5, as stated, fails: after three ticks three callbacks are registered,
but a message without `score` runs the callback once, not three times. The
first run throws, the exception ends the dispatch and reaches the default
handler once; three runs would have thrown three times. -/
theorem resubscribe_dispatch_counterexample :
    (run sampleHost [.tick, .tick, .tick] (load (sampleDom "") .connected)).subscribers.length
      = 3 ∧
    step sampleHost (.message clockOnlyMessage)
        (run sampleHost [.tick, .tick, .tick] (load (sampleDom "") .connected)) =
      invoke (onStatusMessage sampleHost clockOnlyMessage)
        (run sampleHost [.tick, .tick, .tick] (load (sampleDom "") .connected)) ∧
    (step sampleHost (.message clockOnlyMessage)
        (run sampleHost [.tick, .tick, .tick] (load (sampleDom "") .connected))).uncaught =
      [.typeError] ∧
    ((invoke (onStatusMessage sampleHost clockOnlyMessage))^[3]
        (run sampleHost [.tick, .tick, .tick] (load (sampleDom "") .connected))).uncaught =
      [.typeError, .typeError, .typeError] := by
  exact ⟨rfl, rfl, rfl, rfl⟩

/-- C5, amended. The loaded page has no callback on `/match_status` and one
interval function, of period 1000 ms. From load on, whatever else happens, a
timer tick adds exactly one callback and no event removes one, so the
callbacks registered are as many as the ticks so far. One inbound message on
which the callback returns then runs the callback that many times in a row,
once for each registration, and the console gets the status that many times.
One inbound message on which the callback throws runs it once only, when there
is a registration: the exception ends the dispatch, reaches the default
handler once, and nothing is logged. -/
theorem resubscribe_growth (host : Host) (dom : String → Option Element) (st : ConnState)
    (evs : List Event) :
    (load dom st).subscribers = [] ∧
    (load dom st).intervals = [(.intervalTick, 1000)] ∧
    (run host evs (load dom st)).subscribers =
      List.replicate (ticks evs) (statusListener, .statusCallback) ∧
    (run host evs (load dom st)).subscribers.length = ticks evs ∧
    (∀ ev, (step host ev (run host evs (load dom st))).subscribers =
      (run host evs (load dom st)).subscribers ++
        (if ev.isTick then [(statusListener, .statusCallback)] else [])) ∧
    (∀ m, (onStatusMessage host m (run host evs (load dom st))).1 = .ok () →
      step host (.message m) (run host evs (load dom st)) =
        (fun q => (onStatusMessage host m q).2)^[ticks evs] (run host evs (load dom st)) ∧
      ∃ vs, m.get .status = .ok vs ∧
        (step host (.message m) (run host evs (load dom st))).log =
          (run host evs (load dom st)).log ++ List.replicate (ticks evs) [vs]) ∧
    (∀ m, (onStatusMessage host m (run host evs (load dom st))).1 = .error .typeError →
      1 ≤ ticks evs →
      step host (.message m) (run host evs (load dom st)) =
        invoke (onStatusMessage host m) (run host evs (load dom st)) ∧
      (step host (.message m) (run host evs (load dom st))).uncaught =
        (run host evs (load dom st)).uncaught ++ [.typeError] ∧
      (step host (.message m) (run host evs (load dom st))).log =
        (run host evs (load dom st)).log) := by
  have h0 := load_loaded dom st
  have h := run_loaded host evs (load dom st) 0 h0
  rw [Nat.zero_add] at h
  generalize run host evs (load dom st) = p at h ⊢
  have hc := callbacksOf_loaded p _ h
  refine ⟨by simpa using h0.2.2.1, h0.2.1, h.2.2.1, by rw [h.2.2.1]; simp, ?_, ?_, ?_⟩
  · intro ev
    rw [(step_loaded host ev _ _ h).2.2.1, h.2.2.1]
    cases ev.isTick <;> simp [List.replicate_succ']
  · intro m hok
    have e : step host (.message m) p = (fun q => (onStatusMessage host m q).2)^[ticks evs] p := by
      show invoke (emit host (callbacksOf "/match_status" p) m) p = _
      rw [hc]
      exact invoke_ok _ _ _ (emit_ok host m (ticks evs) p hok)
    obtain ⟨_, _, l1, _⟩ := statusCallback_spec host m p
    obtain ⟨vs, hvs, _⟩ := l1 hok
    exact ⟨e, vs, hvs, by rw [e]; exact iterate_ok_log host m vs hvs (ticks evs) p hok⟩
  · intro m herr hn
    obtain ⟨k, hk⟩ : ∃ k, ticks evs = k + 1 := ⟨ticks evs - 1, by omega⟩
    have e : step host (.message m) p = invoke (onStatusMessage host m) p := by
      show invoke (emit host (callbacksOf "/match_status" p) m) p = _
      rw [hc, hk]
      unfold invoke
      rw [emit_error host m k p herr]
      rcases hr : onStatusMessage host m p with ⟨r, q⟩
      rw [hr] at herr
      dsimp only at herr ⊢
      rw [herr]
    obtain ⟨_, _, _, l2⟩ := statusCallback_spec host m p
    obtain ⟨_, _, _, _, _, hu⟩ := displayOnly_statusCallback host m p
    refine ⟨e, ?_, ?_⟩
    · rw [e]
      unfold invoke
      rcases hr : onStatusMessage host m p with ⟨r, q⟩
      rw [hr] at herr hu
      dsimp only at herr hu ⊢
      rw [herr]
      dsimp only
      rw [hu]
    · rw [e, (invoke_fields _ p).2.2.2.2.2.2]
      exact l2 herr

/-- Three ticks, then the sample message: the callback runs three times and
the console holds the status three times. -/
theorem resubscribe_growth_witness :
    (step sampleHost (.message sampleMessage)
        (run sampleHost [.tick, .tick, .tick] (load (sampleDom "") .connected))).log =
      [[.str "running"], [.str "running"], [.str "running"]] := by
  obtain ⟨_, _, _, _, _, hok, _⟩ :=
    resubscribe_growth sampleHost (sampleDom "") .connected [.tick, .tick, .tick]
  obtain ⟨_, vs, hvs, hl⟩ := hok sampleMessage rfl
  cases hvs
  exact hl

end RktlGame
